import Mathlib

/-!
A shallow embedding of the artifact-versioning and ingestion core of the
`swft` compliance backend, together with proofs of the specified properties.

Modelling conventions:
* machine strings are Lean `String`s; every operation the Python code performs
  on them (`lower`, `upper`, `strip`, `split`, slicing) is implemented here on
  the underlying character list, so that all definitions evaluate inside the
  kernel;
* JSON documents (the input to every parser) are the inductive `Json` below;
  `dict.get` chains become `Json.get` / `Json.get?`, Python truthiness becomes
  `Json.truthy`;
* files are an association list from path to byte content (`Fs`);
* PostgreSQL tables are Lean lists of row structures; every `with
  get_connection(...)` block is one transaction: its writes take effect
  together on success, and an exception inside the block leaves the observable
  database unchanged (psycopg rolls back on error, commits happen explicitly);
* library primitives the code calls but does not define — `hashlib.sha256`,
  `datetime.fromisoformat`, the wall clock — are passed in as explicit
  function parameters, since the properties proved here do not depend on
  their internals.
-/

set_option linter.unusedVariables false

namespace Swft

/-- Raw file content, one `Nat` per byte. -/
abbrev Bytes := List Nat

/-- A flat filesystem: an association list from absolute path to content.
Every write in the modelled code is guarded by an existence check, so the
list keeps at most one binding per path. -/
abbrev Fs := List (String × Bytes)

/-- Read a file; `none` models an unreadable / missing path. -/
def fsRead (fs : Fs) (p : String) : Option Bytes := List.lookup p fs

/-! ### Character-level string operations (Python `str` methods) -/

/-- Python whitespace for `str.strip()`: space, tab, newline, CR, VT, FF. -/
def pySpace (c : Char) : Bool :=
  c = ' ' || c = '\t' || c = '\n' || c = '\r' || c.toNat = 11 || c.toNat = 12

/-- Drop characters satisfying `p` from both ends of a list. -/
def stripWhile (p : Char → Bool) (l : List Char) : List Char :=
  ((l.dropWhile p).reverse.dropWhile p).reverse

/-- Python `str.strip()` (default whitespace). -/
def pyStrip (s : String) : String := ⟨stripWhile pySpace s.data⟩

/-- Python `str.upper()` (the inputs here are ASCII control ids). -/
def pyUpper (s : String) : String := ⟨s.data.map Char.toUpper⟩

/-- Python `str.lower()`. -/
def pyLower (s : String) : String := ⟨s.data.map Char.toLower⟩

/-- First `n` characters, Python `s[:n]`. -/
def strTake (n : Nat) (s : String) : String := ⟨s.data.take n⟩

/-- Split a character list on a separator character. -/
def splitListOn (sep : Char) : List Char → List (List Char)
  | [] => [[]]
  | c :: rest =>
    match splitListOn sep rest with
    | [] => [[]]
    | seg :: segs => if c = sep then [] :: seg :: segs else (c :: seg) :: segs

/-- Python `str.split(sep)` for a one-character separator. -/
def pySplit (sep : Char) (s : String) : List String :=
  (splitListOn sep s.data).map String.mk

/-- Python `str.replace(old, new)` for a one-character `old`. -/
def replaceChar (old : Char) (new : String) (s : String) : String :=
  ⟨(s.data.map (fun c => if c = old then new.data else [c])).flatten⟩

/-- Python `str.endswith(c)` for a one-character suffix. -/
def endsWithChar (c : Char) (s : String) : Bool :=
  match s.data.getLast? with
  | some d => d = c
  | none => false

/-- Python string comparison: lexicographic on code points. -/
def listLe : List Char → List Char → Bool
  | [], _ => true
  | _ :: _, [] => false
  | a :: as, b :: bs =>
    if a.toNat < b.toNat then true
    else if b.toNat < a.toNat then false
    else listLe as bs

/-- `a <= b` on strings, Python semantics (code-point lexicographic). -/
def strLe (a b : String) : Bool := listLe a.data b.data

/-! ### A small executable insertion sort (Python `sorted`) -/

/-- Insert into a `le`-sorted list, keeping it sorted. -/
def orderedInsertB (le : α → α → Bool) (a : α) : List α → List α
  | [] => [a]
  | b :: l => if le a b then a :: b :: l else b :: orderedInsertB le a l

/-- Insertion sort by a boolean comparison; models Python `sorted`. -/
def insertionSortB (le : α → α → Bool) : List α → List α
  | [] => []
  | a :: l => orderedInsertB le a (insertionSortB le l)

/-! ### JSON documents -/

/-- Parsed JSON, the input type of every parser in the code. -/
inductive Json where
  | null
  | bool (b : Bool)
  | num (n : Int)
  | str (s : String)
  | arr (items : List Json)
  | obj (fields : List (String × Json))
deriving Repr

/-- `d.get(k)` on a dict, `none` when the key is absent.  The Python code
only applies `.get` to values it has read from JSON objects; applying it to
a non-object would raise `AttributeError`, which no modelled input reaches,
so a non-object yields `none` here. -/
def Json.get? (j : Json) (k : String) : Option Json :=
  match j with
  | .obj fields => List.lookup k fields
  | _ => none

/-- `d.get(k)`: absent keys read as JSON `null` (Python `None`). -/
def Json.get (j : Json) (k : String) : Json := (j.get? k).getD Json.null

/-- `k in d`: key presence. -/
def Json.hasKey (j : Json) (k : String) : Bool := (j.get? k).isSome

/-- Python truthiness of a JSON value. -/
def Json.truthy : Json → Bool
  | .null => false
  | .bool b => b
  | .num n => n != 0
  | .str s => s ≠ ""
  | .arr items => !items.isEmpty
  | .obj fields => !fields.isEmpty

/-- Python `a or b`. -/
def pyOrJ (a b : Json) : Json := if a.truthy then a else b

/-- Iterate a JSON array; `for x in v` with `v` defaulting to `[]`. -/
def Json.asArr : Json → List Json
  | .arr items => items
  | _ => []

/-- The string content of a JSON value, if it is a string. -/
def Json.asStr : Json → Option String
  | .str s => some s
  | _ => none

/-- A truthy string: the value is a string and non-empty.  Used where the
code both checks truthiness and consumes the value as text. -/
def Json.truthyStr (j : Json) : Option String :=
  match j with
  | .str s => if s = "" then none else some s
  | _ => none

/-- Python `a or b` on optional strings (empty string is falsy). -/
def pyOrStr (a : Option String) (b : Option String) : Option String :=
  match a with
  | some s => if s = "" then b else some s
  | none => b

/-- Python `a or default` yielding a plain string. -/
def pyOrStrD (a : Option String) (default : String) : String :=
  match a with
  | some s => if s = "" then default else s
  | none => default

/-! ### `pathlib` helpers used by the pinner and the migration runner -/

/-- `Path(p).name`: the final path component. -/
def pathName (p : String) : String := ((pySplit '/' p).getLast?).getD ""

/-- `Path(p).suffixes`: the list of dotted extensions of the final component
(`"a.tar.gz"` ↦ `[".tar", ".gz"]`, `".bashrc"` ↦ `[]`). -/
def pathSuffixes (p : String) : List String :=
  let name := pathName p
  if endsWithChar '.' name then []
  else
    let core := String.mk (name.data.dropWhile (· = '.'))
    ((pySplit '.' core).drop 1).map (fun s => "." ++ s)

/-- `Path(p).suffix`: the last extension, or `""`. -/
def pathSuffix (p : String) : String := ((pathSuffixes p).getLast?).getD ""

/-- `Path(p).stem`: the final component without its last extension. -/
def pathStem (p : String) : String :=
  let name := pathName p
  let suffix := pathSuffix p
  ⟨name.data.take (name.data.length - suffix.data.length)⟩

/-! ### `utils/strings.py` -/

/-- The characters `SLUG_PATTERN = [^a-z0-9]+` does *not* match. -/
def slugKeep (c : Char) : Bool :=
  ('a'.toNat ≤ c.toNat && c.toNat ≤ 'z'.toNat) ||
  ('0'.toNat ≤ c.toNat && c.toNat ≤ '9'.toNat)

/-- `SLUG_PATTERN.sub("-", ·)`: replace each maximal run of non-matching
characters with one dash.  The flag records a pending unemitted run. -/
def slugSub (pending : Bool) : List Char → List Char
  | [] => if pending then ['-'] else []
  | c :: rest =>
    if slugKeep c then
      if pending then '-' :: c :: slugSub false rest
      else c :: slugSub false rest
    else slugSub true rest

/-- `slugify` from `utils/strings.py`: lower-case, collapse non-alphanumeric
runs to dashes, strip dashes, fall back to `default` when empty/falsy. -/
def slugify (value : Option String) (default : String) : String :=
  match value with
  | none => default
  | some v =>
    if v = "" then default
    else
      let slug := String.mk (stripWhile (· = '-') (slugSub false (pyLower v).data))
      if slug = "" then default else slug

/-! ### `store/digests.py` and `store/files.py` -/

/-- `compute_sha256` from `store/digests.py`: the streaming loop reads
consecutive 1 MiB chunks whose concatenation is the whole file, and feeds
them to `hashlib.sha256`, so the result is the library's hash of the full
content.  The SHA-256 primitive itself is external (`hashlib`) and is the
abstract parameter `sha`; `none` models an unreadable file (`IOError`). -/
def compute_sha256 (sha : Bytes → String) (fs : Fs) (path : String) : Option String :=
  (fsRead fs path).map sha

/-- `pin_source_file` from `store/files.py`: hash the source, derive
`"{stem}-{digest[:12]}{ext}"` inside `dest_dir`, copy only when that exact
destination does not already exist.  Returns `(new filesystem, pinned path,
digest)`, `none` when the source is unreadable. -/
def pin_source_file (sha : Bytes → String) (fs : Fs) (source dest_dir stem : String) :
    Option (Fs × String × String) :=
  match fsRead fs source with
  | none => none
  | some content =>
    let digest := sha content
    let ext := pyOrStrD (some (String.join (pathSuffixes source))) ".json"
    let filename := stem ++ "-" ++ strTake 12 digest ++ ext
    let dest := dest_dir ++ "/" ++ filename
    match fsRead fs dest with
    | some _ => some (fs, dest, digest)
    | none => some ((dest, content) :: fs, dest, digest)

/-! ### Error taxonomy

The Python code signals failure with exceptions; importers never catch them,
so the surface of each modelled operation is an `Except`. -/

/-- The exceptions raised by the modelled code, with their messages. -/
inductive PyError where
  | valueError (msg : String)
  | notImplementedError (msg : String)
  | runtimeError (msg : String)
  | ioError (msg : String)
deriving Repr, DecidableEq

/-! ### `store/versioning.py` -/

/-- The `VersionRecord` dataclass. -/
structure VersionRecord where
  id : Nat
  kind : String
  name : String
  version : String
  content_hash : String
  source_uri : String
deriving Repr, DecidableEq

/-- The `swft.version_registry` table plus its id sequence. -/
structure Registry where
  rows : List VersionRecord
  next_id : Nat
deriving Repr, DecidableEq

/-- `SELECT ... FROM version_registry WHERE kind=%s AND name=%s`;
`(kind, name)` is unique, so the first match is the row. -/
def Registry.find? (reg : Registry) (kind name : String) : Option VersionRecord :=
  reg.rows.find? (fun r => r.kind = kind && r.name = name)

/-- The exact `ValueError` message `ensure_version` raises on a hash clash. -/
def conflictMsg (name kind existing_hash : String) : String :=
  "Version '" ++ name ++ "' for kind '" ++ kind ++ "' already exists with hash "
    ++ existing_hash ++ ". Use a new name or remove the existing record before re-importing."

/-- `ensure_version` from `store/versioning.py`.  Returns the record (or the
raised error) together with the registry as left by the executed statements:
a conflict raises before any write, a matching hash optionally updates
`version`/`source_uri` in place (the returned dataclass is built from the
previously stored values), an absent pair inserts a fresh row. -/
def ensure_version (reg : Registry) (kind name version content_hash source_uri : String) :
    Except PyError VersionRecord × Registry :=
  match reg.find? kind name with
  | some row =>
    if row.content_hash ≠ content_hash then
      (.error (.valueError (conflictMsg name kind row.content_hash)), reg)
    else
      let reg' :=
        if row.version ≠ version || row.source_uri ≠ source_uri then
          { reg with
            rows := reg.rows.map (fun r =>
              if r.id = row.id then { r with version := version, source_uri := source_uri } else r) }
        else reg
      (.ok { id := row.id, kind := kind, name := name, version := row.version,
             content_hash := row.content_hash, source_uri := row.source_uri }, reg')
  | none =>
    let fresh : VersionRecord :=
      { id := reg.next_id, kind := kind, name := name, version := version,
        content_hash := content_hash, source_uri := source_uri }
    (.ok fresh, { rows := reg.rows ++ [fresh], next_id := reg.next_id + 1 })

/-! ### `oscal/profile.py` -/

/-- The `ProfileMetadata` dataclass; the raw JSON values are kept, `null`
standing for Python `None`. -/
structure ProfileMetadata where
  title : Json
  version : Json
  oscal_version : Json
deriving Repr

/-- The `ProfileDocument` dataclass. -/
structure ProfileDocument where
  metadata : ProfileMetadata
  control_ids : List String
deriving Repr

/-- `_extract_version`, shared shape of `oscal/profile.py` and
`oscal/catalog.py`: a top-level `version` entry (string, or a dict's
`text`/`value`) wins; otherwise the first `props` entry named `"version"`. -/
def extract_version (metadata : Json) : Json :=
  let fromProps :=
    match (metadata.get "props").asArr.find?
        (fun prop => (prop.get "name").asStr == some "version") with
    | some prop => prop.get "value"
    | none => .null
  if metadata.hasKey "version" then
    match metadata.get "version" with
    | .obj fields => pyOrJ ((Json.obj fields).get "text") ((Json.obj fields).get "value")
    | .str s => .str s
    | _ => fromProps
  else fromProps

/-- The string members of a JSON array (the ids the Python `set.update`
collects; the modelled documents carry string ids, as OSCAL requires). -/
def strMembers (j : Json) : List String := j.asArr.filterMap Json.asStr

/-- One `include-controls` entry of `_collect_control_ids`: `with-ids`
members are accumulated first, then a `matching` key raises
`NotImplementedError`. -/
def collect_include (ids : List String) (inc : Json) : Except PyError (List String) :=
  let ids := if inc.hasKey "with-ids" then ids ++ strMembers (inc.get "with-ids") else ids
  if inc.hasKey "matching" then
    .error (.notImplementedError "Profile include-controls with 'matching' not supported yet.")
  else .ok ids

/-- The inner loop over `imp.get("include-controls", [])`. -/
def collect_includes (ids : List String) : List Json → Except PyError (List String)
  | [] => .ok ids
  | inc :: rest =>
    match collect_include ids inc with
    | .error e => .error e
    | .ok ids' => collect_includes ids' rest

/-- The outer loop over `profile.get("imports", [])`. -/
def collect_imports (ids : List String) : List Json → Except PyError (List String)
  | [] => .ok ids
  | imp :: rest =>
    match collect_includes ids (imp.get "include-controls").asArr with
    | .error e => .error e
    | .ok ids' => collect_imports ids' rest

/-- The fallback loop of `_collect_control_ids`: a top-level `controls[]`
list, keeping each truthy `id`. -/
def fallback_ids (profile : Json) : List String :=
  (profile.get "controls").asArr.foldl
    (fun acc control =>
      match (control.get "id").truthyStr with
      | some cid => acc ++ [cid]
      | none => acc) []

/-- `_collect_control_ids`: ids from the imports, else the fallback list.
The Python `set` is modelled by deduplicating the collected list; the caller
sorts, so only the set of elements matters. -/
def collect_control_ids (profile : Json) : Except PyError (List String) :=
  match collect_imports [] (profile.get "imports").asArr with
  | .error e => .error e
  | .ok ids => if ids.isEmpty then .ok (fallback_ids profile).dedup else .ok ids.dedup

/-- `load_profile` from `oscal/profile.py`, applied to the parsed JSON. -/
def load_profile (data : Json) : Except PyError ProfileDocument :=
  if ¬ data.hasKey "profile" then
    .error (.valueError "Expected OSCAL profile JSON with top-level 'profile'.")
  else
    let profile := data.get "profile"
    let metadata := (profile.get? "metadata").getD (.obj [])
    let meta : ProfileMetadata :=
      { title := metadata.get "title"
        version := extract_version metadata
        oscal_version := metadata.get "oscal-version" }
    match collect_control_ids profile with
    | .error e => .error e
    | .ok ids =>
      let control_ids := insertionSortB strLe ids
      if control_ids.isEmpty then
        .error (.valueError "Profile did not yield any control identifiers.")
      else .ok { metadata := meta, control_ids := control_ids }

/-! ### `importers/azure/parser.py` -/

/-- The `InitiativePolicy` dataclass (string-typed fields keep the raw JSON
value where the code performs no conversion). -/
structure InitiativePolicy where
  policy_definition_id : Json
  reference_id : Json
  display_name : Json
  category : Json
  control_ids : List String
deriving Repr

/-- The `InitiativeDocument` dataclass. -/
structure InitiativeDocument where
  name : Json
  version : Json
  policies : List InitiativePolicy
deriving Repr

/-- The `PolicyStateEntry` dataclass.  The five fields are retained only
when truthy; real policy telemetry carries strings, and the SQL layer the
importer hands them to requires text values, so the model types them as
(non-empty) strings. -/
structure PolicyStateEntry where
  policy_definition_id : String
  policy_assignment_id : String
  resource_id : String
  compliance_state : String
  last_evaluated : String
deriving Repr, DecidableEq

/-- The loop body of `_extract_control_ids`: a string id is stripped,
upper-cased and appended; any other member is ignored. -/
def norm_control_id (acc : List String) (cid : Json) : List String :=
  match cid with
  | .str s => acc ++ [pyUpper (pyStrip s)]
  | _ => acc

/-- `_extract_control_ids` from `importers/azure/parser.py`:
`metadata.compliance.complianceControlIds` falling back (Python `or`) to
`metadata.nistControlIds`, each string member stripped and upper-cased. -/
def extract_control_ids (entry : Json) : List String :=
  let metadata := (entry.get? "metadata").getD (.obj [])
  let compliance := (metadata.get? "compliance").getD (.obj [])
  let control_ids := pyOrJ (compliance.get "complianceControlIds")
    (pyOrJ (metadata.get "nistControlIds") (.arr []))
  control_ids.asArr.foldl norm_control_id []

/-- One `properties.policyDefinitions[]` entry of `load_initiative`:
`none` when the entry lacks a truthy `policyDefinitionId` (the `continue`). -/
def initiative_policy (properties metadata entry : Json) : Option InitiativePolicy :=
  let definition_id := entry.get "policyDefinitionId"
  if ¬ definition_id.truthy then none
  else
    let reference_id := entry.get "policyDefinitionReferenceId"
    let display_name := pyOrJ (entry.get "displayName") reference_id
    let category := pyOrJ ((entry.get? "metadata").getD (.obj []) |>.get "category")
      (pyOrJ (metadata.get "category") (properties.get "category"))
    some { policy_definition_id := definition_id
           reference_id := reference_id
           display_name := display_name
           category := category
           control_ids := extract_control_ids entry }

/-- `load_initiative` from `importers/azure/parser.py`, applied to the
parsed JSON.  The body raises nothing: missing keys default, entries
without a `policyDefinitionId` are skipped. -/
def load_initiative (data : Json) : Except PyError InitiativeDocument :=
  let properties := (data.get? "properties").getD (.obj [])
  let metadata := (properties.get? "metadata").getD (.obj [])
  let version := pyOrJ (metadata.get "version") (properties.get "version")
  let policies := (properties.get "policyDefinitions").asArr.filterMap
    (initiative_policy properties metadata)
  .ok { name := pyOrJ (data.get "name") (properties.get "displayName")
        version := version
        policies := policies }

/-- One entry of `load_policy_states`: the five aliased fields must all be
truthy, else the entry is dropped. -/
def policy_state_entry (entry : Json) : Option PolicyStateEntry :=
  match (pyOrJ (entry.get "policyDefinitionId") (entry.get "policyDefinition")).truthyStr,
      (entry.get "policyAssignmentId").truthyStr,
      (pyOrJ (entry.get "resourceId") (entry.get "resourceUri")).truthyStr,
      (pyOrJ (entry.get "complianceState") (entry.get "state")).truthyStr,
      (pyOrJ (entry.get "timestamp")
        (pyOrJ (entry.get "lastEvaluatedOn") (entry.get "evaluatedTime"))).truthyStr with
  | some d, some a, some r, some c, some t =>
    some { policy_definition_id := d, policy_assignment_id := a, resource_id := r,
           compliance_state := c, last_evaluated := t }
  | _, _, _, _, _ => none

/-- `load_policy_states` from `importers/azure/parser.py`: a dict's
`value`/`states` array or a bare array; any other shape raises. -/
def load_policy_states (raw : Json) : Except PyError (List PolicyStateEntry) :=
  match raw with
  | .obj fields =>
    let entries := (pyOrJ ((Json.obj fields).get "value")
      (pyOrJ ((Json.obj fields).get "states") (.arr []))).asArr
    .ok (entries.filterMap policy_state_entry)
  | .arr entries => .ok (entries.filterMap policy_state_entry)
  | _ => .error (.valueError "Unsupported policy state payload format.")

/-! ### `oscal/catalog.py` data model and `importers/oscal/catalog_importer.py`

`load_catalog` runs before the importer's transaction opens; the claims about
the importer concern its transactional behaviour, so the parser's output
dataclasses are the importer's input here. -/

/-- The `CatalogMetadata` dataclass (fields typed `str | None`). -/
structure CatalogMetadata where
  title : Option String
  version : Option String
  oscal_version : Option String
deriving Repr, DecidableEq

/-- The `CatalogControl` dataclass; `parameters` / `assessment_objectives`
are lists of raw JSON dicts. -/
structure CatalogControl where
  control_id : String
  family : Option String
  title : Option String
  parameters : List Json
  assessment_objectives : List Json
deriving Repr

/-- The `CatalogDocument` dataclass. -/
structure CatalogDocument where
  metadata : CatalogMetadata
  controls : List CatalogControl
deriving Repr

/-- A `swft.catalog_controls` row. -/
structure ControlRow where
  control_id : String
  family : Option String
  title : Option String
  parameters_json : List Json
  assessment_objectives_json : List Json
  catalog_version_ref : Nat
deriving Repr

/-- The database state the catalog importer touches. -/
structure CatalogDb where
  registry : Registry
  catalog_controls : List ControlRow
deriving Repr

/-- The `CatalogImportResult` dataclass. -/
structure CatalogImportResult where
  version : VersionRecord
  control_count : Nat
  pinned_path : String
deriving Repr

/-- The per-control `INSERT ... ON CONFLICT (control_id) DO UPDATE`: an
existing row is rewritten in place, a new control id is appended. -/
def upsert_control (rows : List ControlRow) (c : CatalogControl) (vid : Nat) : List ControlRow :=
  let fresh : ControlRow :=
    { control_id := c.control_id, family := c.family, title := c.title,
      parameters_json := c.parameters, assessment_objectives_json := c.assessment_objectives,
      catalog_version_ref := vid }
  if rows.any (fun r => r.control_id == c.control_id) then
    rows.map (fun r => if r.control_id == c.control_id then fresh else r)
  else rows ++ [fresh]

/-- `CatalogImporter.ingest`: pin, `ensure_version`, per-control upserts,
then `conn.commit()`.  A `VersionConflict` raised by `ensure_version`
propagates out of the `with get_connection(...)` block, which rolls the
transaction back, so the returned database equals the input one; only the
pinned file (written before the transaction) survives. -/
def CatalogImporter.ingest (sha : Bytes → String) (fs : Fs) (db : CatalogDb)
    (document : CatalogDocument) (catalog_path pinned_root name : String)
    (pinned_name : Option String) :
    Except PyError CatalogImportResult × Fs × CatalogDb :=
  let slug := slugify (pyOrStr pinned_name document.metadata.title) name
  let dest_dir := pinned_root ++ "/catalogs"
  match pin_source_file sha fs catalog_path dest_dir slug with
  | none => (.error (.ioError "source file unreadable"), fs, db)
  | some (fs', pinned_path, digest) =>
    let version_label :=
      pyOrStrD (pyOrStr document.metadata.version document.metadata.oscal_version) name
    match ensure_version db.registry "catalog" name version_label digest pinned_path with
    | (.error e, _) => (.error e, fs', db)
    | (.ok version, reg') =>
      let controls' := document.controls.foldl
        (fun rows c => upsert_control rows c version.id) db.catalog_controls
      (.ok { version := version, control_count := document.controls.length,
             pinned_path := pinned_path },
       fs', { registry := reg', catalog_controls := controls' })

/-! ### `importers/azure/policy_state_importer.py` -/

/-- A `swft.policy_initiatives` row (the columns this importer reads). -/
structure InitiativeRow where
  id : Nat
  initiative_id : String
  scope : String
deriving Repr, DecidableEq

/-- A `swft.policy_mappings` row. -/
structure MappingRow where
  initiative_fk : Nat
  control_id : String
  policy_definition_fk : String
deriving Repr, DecidableEq

/-- A `swft.policy_states` row; `last_evaluated` is a timestamp (the
abstract codomain of `datetime.fromisoformat`). -/
structure StateRow where
  initiative_fk : Nat
  control_id : String
  policy_definition_fk : String
  assignment_id : String
  resource_id : String
  compliance_state : String
  last_evaluated : Nat
deriving Repr, DecidableEq

/-- The database state the policy-state importer touches. -/
structure PolicyDb where
  policy_initiatives : List InitiativeRow
  policy_mappings : List MappingRow
  policy_states : List StateRow
deriving Repr, DecidableEq

/-- The `PolicyStateImportResult` dataclass. -/
structure PolicyStateImportResult where
  rows_processed : Nat
  rows_inserted : Nat
deriving Repr, DecidableEq

/-- The exact `ValueError` message `_fetch_initiative` raises. -/
def notFoundMsg (name scope : String) : String :=
  "Initiative '" ++ name ++ "' with scope '" ++ scope ++ "' not found. Import definitions first."

/-- `_parse_timestamp`: ISO-8601 after a `Z → +00:00` rewrite, else the
current wall clock.  `datetime.fromisoformat` and `datetime.now` are
external; they are the parameters `fromiso` and `now`. -/
def parse_timestamp (fromiso : String → Option Nat) (now : Nat) (value : String) : Nat :=
  match fromiso (replaceChar 'Z' "+00:00" value) with
  | some t => t
  | none => now

/-- `_controls_for_policy`: the control ids mapped to a policy definition
inside one initiative. -/
def controls_for_policy (mappings : List MappingRow) (initiative_fk : Nat)
    (policy_definition_id : String) : List String :=
  (mappings.filter (fun m =>
    m.initiative_fk == initiative_fk && m.policy_definition_fk == policy_definition_id)).map
    (fun m => m.control_id)

/-- Does a stored row share the five-part natural key of the new
observation for control `cid`? -/
def stateKeyMatches (r : StateRow) (initiative_fk : Nat) (cid : String)
    (s : PolicyStateEntry) : Bool :=
  r.initiative_fk == initiative_fk && r.control_id == cid &&
  r.policy_definition_fk == s.policy_definition_id &&
  r.assignment_id == s.policy_assignment_id && r.resource_id == s.resource_id

/-- The per-control `DELETE` (all rows sharing the key, wherever they sit)
followed by the `INSERT` of the new observation. -/
def replace_state_row (rows : List StateRow) (initiative_fk : Nat) (cid : String)
    (s : PolicyStateEntry) (last_evaluated : Nat) : List StateRow :=
  rows.filter (fun r => !(stateKeyMatches r initiative_fk cid s)) ++
    [{ initiative_fk := initiative_fk, control_id := cid,
       policy_definition_fk := s.policy_definition_id,
       assignment_id := s.policy_assignment_id, resource_id := s.resource_id,
       compliance_state := s.compliance_state, last_evaluated := last_evaluated }]

/-- The body of the `for state in states` loop of `_persist_states`:
resolve the owning controls (an entry with none is skipped — the
`continue`), then delete-and-insert per control, counting insertions. -/
def persist_state_step (fromiso : String → Option Nat) (now : Nat)
    (mappings : List MappingRow) (initiative_fk : Nat)
    (acc : List StateRow × Nat) (s : PolicyStateEntry) : List StateRow × Nat :=
  let control_ids := controls_for_policy mappings initiative_fk s.policy_definition_id
  if control_ids.isEmpty then acc
  else
    let last_evaluated := parse_timestamp fromiso now s.last_evaluated
    control_ids.foldl
      (fun acc cid => (replace_state_row acc.1 initiative_fk cid s last_evaluated, acc.2 + 1))
      acc

/-- `_persist_states`: the loop over the retained entries. -/
def persist_states (fromiso : String → Option Nat) (now : Nat)
    (mappings : List MappingRow) (initiative_fk : Nat)
    (rows : List StateRow) (states : List PolicyStateEntry) : List StateRow × Nat :=
  states.foldl (persist_state_step fromiso now mappings initiative_fk) (rows, 0)

/-- `PolicyStateImporter.ingest`: parse the snapshot, then in one
transaction fetch the initiative (raising `ValueError` when absent — the
rollback leaves the database unchanged), persist the states, commit. -/
def PolicyStateImporter.ingest (fromiso : String → Option Nat) (now : Nat)
    (db : PolicyDb) (raw : Json) (initiative_name scope : String) :
    Except PyError PolicyStateImportResult × PolicyDb :=
  let scope := pyLower scope
  match load_policy_states raw with
  | .error e => (.error e, db)
  | .ok states =>
    match db.policy_initiatives.find? (fun i =>
        i.initiative_id == initiative_name && i.scope == scope) with
    | none => (.error (.valueError (notFoundMsg initiative_name scope)), db)
    | some initiative =>
      let result := persist_states fromiso now db.policy_mappings initiative.id
        db.policy_states states
      (.ok { rows_processed := states.length, rows_inserted := result.2 },
       { db with policy_states := result.1 })

/-! ### `evidence/parsers.py` (CycloneDX) -/

/-- The `SbomComponent` dataclass; `name`/`version`/`purl` keep the raw
JSON values (`null` for an absent key, `""` default for `name`). -/
structure SbomComponent where
  name : Json
  version : Json
  purl : Json
  licenses : List String
deriving Repr

/-- `_extract_licenses`: each `licenses[]` entry that is a dict contributes
its `license` value (or, when that is falsy, the entry itself); a dict
license yields `id` / `name` / `text` (first truthy), a string license is
taken as is; anything else contributes nothing. -/
def extract_licenses (component : Json) : List String :=
  (component.get "licenses").asArr.foldl
    (fun acc entry =>
      match entry with
      | .obj fields =>
        let lic := pyOrJ ((Json.obj fields).get "license") (Json.obj fields)
        match lic with
        | .obj lfields =>
          match (pyOrJ ((Json.obj lfields).get "id")
              (pyOrJ ((Json.obj lfields).get "name") ((Json.obj lfields).get "text"))).truthyStr with
          | some v => acc ++ [v]
          | none => acc
        | .str s => acc ++ [s]
        | _ => acc
      | _ => acc) []

/-- `parse_cyclonedx`, applied to the file's parsed JSON. -/
def parse_cyclonedx (data : Json) : List SbomComponent :=
  (data.get "components").asArr.map (fun component =>
    { name := (component.get? "name").getD (.str "")
      version := component.get "version"
      purl := component.get "purl"
      licenses := extract_licenses component })

/-! ### `runs.py`, `evidence/manager.py`, `evidence/sbom_cyclonedx.py` -/

/-- The `ProjectRecord` dataclass from `projects/manager.py`. -/
structure ProjectRecord where
  id : Nat
  key : String
  services : List String
  regions : List String
  boundary_description : Option String
deriving Repr

/-- A `swft.runs` row. -/
structure RunRow where
  id : Nat
  project_fk : Nat
  run_id : String
deriving Repr, DecidableEq

/-- A `swft.evidence_files` row. -/
structure EvidenceRow where
  id : Nat
  kind : String
  file_path : String
  content_hash : String
  size_bytes : Nat
  collected_at : String
  run_id : String
deriving Repr, DecidableEq

/-- A `swft.sbom_components` row. -/
structure SbomRow where
  evidence_fk : Nat
  name : Json
  version : Json
  purl : Json
  licenses : String
deriving Repr

/-- The database state the evidence path touches, with the id sequences. -/
structure EvidenceDb where
  runs : List RunRow
  evidence_files : List EvidenceRow
  run_evidence : List (Nat × Nat)
  sbom_components : List SbomRow
  next_run_id : Nat
  next_evidence_id : Nat
deriving Repr

/-- The `EvidenceRecord` dataclass. -/
structure EvidenceRecord where
  id : Nat
  kind : String
  file_path : String
  content_hash : String
  run_fk : Nat
  run_id : String
deriving Repr, DecidableEq

/-- `ensure_run` from `runs.py`: `INSERT ... ON CONFLICT DO NOTHING
RETURNING id`, falling back to a `SELECT` of the existing row. -/
def ensure_run (db : EvidenceDb) (project_id : Nat) (run_id : String) : Nat × EvidenceDb :=
  match db.runs.find? (fun r => r.project_fk == project_id && r.run_id == run_id) with
  | some r => (r.id, db)
  | none =>
    (db.next_run_id,
     { db with runs := db.runs ++ [{ id := db.next_run_id, project_fk := project_id,
                                     run_id := run_id }],
               next_run_id := db.next_run_id + 1 })

/-- The `evidence_files` upsert: `ON CONFLICT (content_hash) DO UPDATE`
rewrites every column but the id of the existing row. -/
def upsert_evidence (db : EvidenceDb) (kind file_path content_hash : String)
    (size_bytes : Nat) (collected_at run_id : String) : Nat × EvidenceDb :=
  match db.evidence_files.find? (fun r => r.content_hash == content_hash) with
  | some r =>
    (r.id,
     { db with evidence_files := db.evidence_files.map (fun e =>
        if e.content_hash == content_hash then
          { e with kind := kind, file_path := file_path, size_bytes := size_bytes,
                   collected_at := collected_at, run_id := run_id }
        else e) })
  | none =>
    (db.next_evidence_id,
     { db with evidence_files := db.evidence_files ++
        [{ id := db.next_evidence_id, kind := kind, file_path := file_path,
           content_hash := content_hash, size_bytes := size_bytes,
           collected_at := collected_at, run_id := run_id }],
               next_evidence_id := db.next_evidence_id + 1 })

/-- `EvidenceManager.ingest_file`: pin under the per-project/run directory,
then one transaction: ensure the run row, upsert the evidence row keyed by
content hash, insert the join row (`ON CONFLICT DO NOTHING`), commit.  The
last component of the result lists the database state at each
`conn.commit()` this call performs — its length is the number of
transactions committed. -/
def EvidenceManager.ingest_file (sha : Bytes → String) (fs : Fs) (db : EvidenceDb)
    (project : ProjectRecord) (run_id kind source store_root collected_at : String) :
    Except PyError EvidenceRecord × Fs × EvidenceDb × List EvidenceDb :=
  let dest_dir := store_root ++ "/evidence/" ++ project.key ++ "/" ++ run_id
  let stem := project.key ++ "-" ++ run_id ++ "-" ++ pathStem source
  match pin_source_file sha fs source dest_dir stem with
  | none => (.error (.ioError "source file unreadable"), fs, db, [])
  | some (fs', pinned_path, digest) =>
    let size_bytes := ((fsRead fs' pinned_path).getD []).length
    let runResult := ensure_run db project.id run_id
    let upResult := upsert_evidence runResult.2 kind pinned_path digest size_bytes
      collected_at run_id
    let db3 :=
      if upResult.2.run_evidence.contains (runResult.1, upResult.1) then upResult.2
      else { upResult.2 with run_evidence := upResult.2.run_evidence ++ [(runResult.1, upResult.1)] }
    (.ok { id := upResult.1, kind := kind, file_path := pinned_path, content_hash := digest,
           run_fk := runResult.1, run_id := run_id },
     fs', db3, [db3])

/-- `", ".join(licenses)`. -/
def joinSep (sep : String) : List String → String
  | [] => ""
  | x :: rest => rest.foldl (fun a b => a ++ sep ++ b) x

/-- `SbomIngestor.ingest`: parse the SBOM (`doc` is the parsed content of
the file at `sbom_path`; `json.loads` is the external decoder), call
`EvidenceManager.ingest_file` — which opens, commits and closes its own
connection — then open a *second* connection to replace the
`sbom_components` rows for the evidence id, and commit that one too.  The
trace component again lists the state at each commit. -/
def SbomIngestor.ingest (sha : Bytes → String) (fs : Fs) (db : EvidenceDb)
    (project : ProjectRecord) (run_id : String) (sbom_path : String) (doc : Json)
    (store_root collected_at : String) :
    Except PyError (EvidenceRecord × Nat) × Fs × EvidenceDb × List EvidenceDb :=
  let components := parse_cyclonedx doc
  match EvidenceManager.ingest_file sha fs db project run_id "sbom" sbom_path
      store_root collected_at with
  | (.error e, fs', db', trace) => (.error e, fs', db', trace)
  | (.ok evidence, fs', db1, trace1) =>
    let kept := db1.sbom_components.filter (fun r => !(r.evidence_fk == evidence.id))
    let fresh := components.map (fun c =>
      ({ evidence_fk := evidence.id, name := c.name, version := c.version, purl := c.purl,
         licenses := joinSep ", " c.licenses } : SbomRow))
    let db2 := { db1 with sbom_components := kept ++ fresh }
    (.ok (evidence, components.length), fs', db2, trace1 ++ [db2])

/-! ### `store/migrate.py` -/

/-- The `Migration` dataclass (the `path` field is subsumed by keeping the
filename; the checksum is `hashlib.sha256` of the file's bytes). -/
structure Migration where
  filename : String
  checksum : String
deriving Repr, DecidableEq

/-- `MigrationRunner._discover`: the `.sql` files of the migrations
directory in sorted filename order, each paired with its checksum. -/
def MigrationRunner.discover (sha : Bytes → String) (files : List (String × Bytes)) :
    List Migration :=
  let sql := files.filter (fun f => pathSuffix f.1 == ".sql")
  (insertionSortB (fun a b => strLe a.1 b.1) sql).map
    (fun f => { filename := f.1, checksum := sha f.2 })

/-- The exact `RuntimeError` message of a checksum mismatch. -/
def mismatchMsg (filename expected actual : String) : String :=
  "Checksum mismatch for " ++ filename ++ ": " ++ expected ++ " != " ++ actual

/-- The loop body of `MigrationRunner.apply`.  `existing` is the snapshot
of the tracking table read once before the loop; `table` accumulates the
inserts; `applied` the filenames applied by this call, in order. -/
def applyGo (existing : List (String × String)) (table : List (String × String))
    (applied : List String) : List Migration → Except PyError (List String × List (String × String))
  | [] => .ok (applied, table)
  | m :: rest =>
    match List.lookup m.filename existing with
    | some expected =>
      if expected ≠ "" then
        if expected ≠ m.checksum then
          .error (.runtimeError (mismatchMsg m.filename expected m.checksum))
        else applyGo existing table applied rest
      else applyGo existing (table ++ [(m.filename, m.checksum)]) (applied ++ [m.filename]) rest
    | none => applyGo existing (table ++ [(m.filename, m.checksum)]) (applied ++ [m.filename]) rest

/-- `MigrationRunner.apply` on a discovered migration list: skip an applied
migration with matching checksum, raise `RuntimeError` on a mismatch, else
run the migration and record its checksum.  (The `if expected:` guard makes
an empty recorded checksum falsy, hence re-applied — mirrored verbatim.) -/
def MigrationRunner.apply (existing : List (String × String)) (migrations : List Migration) :
    Except PyError (List String × List (String × String)) :=
  applyGo existing existing [] migrations

/-- The tracking table as observed after the call: the raised
`RuntimeError` propagates out of the `with get_connection(...)` block,
which rolls the transaction back to the pre-call table. -/
def MigrationRunner.applyFinalTable (existing : List (String × String))
    (migrations : List Migration) : List (String × String) :=
  match MigrationRunner.apply existing migrations with
  | .ok (_, table) => table
  | .error _ => existing

/-! ## Supporting lemmas -/

theorem listLe_total (a b : List Char) : listLe a b = true ∨ listLe b a = true := by
  induction a generalizing b with
  | nil => left; rfl
  | cons x xs ih =>
    cases b with
    | nil => right; rfl
    | cons y ys =>
      rcases Nat.lt_trichotomy x.toNat y.toNat with h | h | h
      · left; simp [listLe, h]
      · have h1 : ¬ x.toNat < y.toNat := by omega
        have h2 : ¬ y.toNat < x.toNat := by omega
        rcases ih ys with h3 | h3
        · left; simp [listLe, h1, h2, h3]
        · right; simp [listLe, h1, h2, h3]
      · right; simp [listLe, h]

theorem listLe_trans : ∀ {a b c : List Char},
    listLe a b = true → listLe b c = true → listLe a c = true
  | [], _, _, _, _ => rfl
  | _ :: _, [], _, h1, _ => by simp [listLe] at h1
  | _ :: _, _ :: _, [], _, h2 => by simp [listLe] at h2
  | x :: xs, y :: ys, z :: zs, h1, h2 => by
    simp only [listLe] at h1 h2 ⊢
    by_cases hyx : y.toNat < x.toNat
    · rw [if_neg (by omega), if_pos hyx] at h1
      exact absurd h1 (by simp)
    · by_cases hzy : z.toNat < y.toNat
      · rw [if_neg (by omega), if_pos hzy] at h2
        exact absurd h2 (by simp)
      · by_cases hxy : x.toNat < y.toNat
        · rw [if_pos (by omega : x.toNat < z.toNat)]
        · by_cases hyz : y.toNat < z.toNat
          · rw [if_pos (by omega : x.toNat < z.toNat)]
          · have h1' : listLe xs ys = true := by
              rw [if_neg hxy, if_neg hyx] at h1; exact h1
            have h2' : listLe ys zs = true := by
              rw [if_neg hyz, if_neg hzy] at h2; exact h2
            rw [if_neg (by omega : ¬ x.toNat < z.toNat),
              if_neg (by omega : ¬ z.toNat < x.toNat)]
            exact listLe_trans h1' h2'

theorem strLe_total (a b : String) : strLe a b = true ∨ strLe b a = true :=
  listLe_total a.data b.data

theorem strLe_trans {a b c : String} (h1 : strLe a b = true) (h2 : strLe b c = true) :
    strLe a c = true :=
  listLe_trans h1 h2

theorem mem_orderedInsertB (le : α → α → Bool) (a x : α) (l : List α) :
    x ∈ orderedInsertB le a l ↔ x = a ∨ x ∈ l := by
  induction l with
  | nil => simp [orderedInsertB]
  | cons b t ih =>
    by_cases h : le a b = true
    · simp [orderedInsertB, h]
    · simp only [orderedInsertB, if_neg h, List.mem_cons, ih]
      tauto

theorem pairwise_orderedInsertB (le : α → α → Bool)
    (htot : ∀ a b, le a b = true ∨ le b a = true)
    (htrans : ∀ a b c, le a b = true → le b c = true → le a c = true)
    (a : α) (l : List α) (h : l.Pairwise (fun x y => le x y = true)) :
    (orderedInsertB le a l).Pairwise (fun x y => le x y = true) := by
  induction l with
  | nil => simp [orderedInsertB]
  | cons b t ih =>
    rcases List.pairwise_cons.mp h with ⟨hb, ht⟩
    by_cases hab : le a b = true
    · simp only [orderedInsertB, if_pos hab]
      refine List.Pairwise.cons ?_ h
      intro y hy
      rcases List.mem_cons.mp hy with rfl | hy
      · exact hab
      · exact htrans a b y hab (hb y hy)
    · simp only [orderedInsertB, if_neg hab]
      refine List.Pairwise.cons ?_ (ih ht)
      intro y hy
      rcases (mem_orderedInsertB le a y t).mp hy with rfl | hy
      · rcases htot y b with h' | h'
        · exact absurd h' hab
        · exact h'
      · exact hb y hy

theorem pairwise_insertionSortB (le : α → α → Bool)
    (htot : ∀ a b, le a b = true ∨ le b a = true)
    (htrans : ∀ a b c, le a b = true → le b c = true → le a c = true)
    (l : List α) :
    (insertionSortB le l).Pairwise (fun x y => le x y = true) := by
  induction l with
  | nil => exact List.Pairwise.nil
  | cons a t ih => exact pairwise_orderedInsertB le htot htrans a _ ih

theorem length_orderedInsertB (le : α → α → Bool) (a : α) (l : List α) :
    (orderedInsertB le a l).length = l.length + 1 := by
  induction l with
  | nil => rfl
  | cons b t ih =>
    by_cases h : le a b = true <;> simp [orderedInsertB, h, ih]

theorem length_insertionSortB (le : α → α → Bool) (l : List α) :
    (insertionSortB le l).length = l.length := by
  induction l with
  | nil => rfl
  | cons a t ih => simp [insertionSortB, length_orderedInsertB, ih]

theorem find?_map_pres (f : α → α) (p : α → Bool) (hf : ∀ a, p (f a) = p a) (l : List α) :
    (l.map f).find? p = (l.find? p).map f := by
  induction l with
  | nil => rfl
  | cons a t ih =>
    by_cases hpa : p a = true
    · rw [List.map_cons, List.find?_cons_of_pos _ (by rw [hf]; exact hpa),
        List.find?_cons_of_pos _ hpa, Option.map_some']
    · rw [List.map_cons, List.find?_cons_of_neg _ (by rw [hf]; simpa using hpa),
        List.find?_cons_of_neg _ (by simpa using hpa), ih]

/-- The registry update of the matching-hash path preserves the searched
`(kind, name)` key of every row, so the updated row is found at the same
position. -/
theorem registry_find?_after_update (reg : Registry) (kind name version source_uri : String)
    (row : VersionRecord) (hfind : reg.find? kind name = some row) :
    (Registry.find?
      { reg with rows := reg.rows.map (fun r =>
          if r.id = row.id then { r with version := version, source_uri := source_uri } else r) }
      kind name) = some { row with version := version, source_uri := source_uri } := by
  unfold Registry.find? at hfind ⊢
  rw [find?_map_pres _ _ (fun r => by by_cases h : r.id = row.id <;> simp [h]), hfind,
    Option.map_some']
  simp

/-! ## Claim theorems -/

/-! ### C1 — version-registry hash immutability -/

/-- **C1.** For a `(kind, name)` pair that already has a `VersionRecord`,
`ensure_version` with a different `content_hash` raises the conflict
`ValueError` (whose message names the existing hash) and leaves the registry
— in particular the stored record's `id` and `content_hash` — unchanged,
while `ensure_version` with the identical `content_hash` succeeds and
returns a record with the same `id` and `content_hash` as the original. -/
theorem ensure_version_hash_immutable
    (reg : Registry) (kind name version source_uri newHash : String) (row : VersionRecord)
    (hfind : reg.find? kind name = some row) :
    (newHash ≠ row.content_hash →
      ensure_version reg kind name version newHash source_uri =
        (.error (.valueError (conflictMsg name kind row.content_hash)), reg) ∧
      ∃ pre post, conflictMsg name kind row.content_hash = pre ++ row.content_hash ++ post) ∧
    ((ensure_version reg kind name version row.content_hash source_uri).1 =
        .ok { id := row.id, kind := kind, name := name, version := row.version,
              content_hash := row.content_hash, source_uri := row.source_uri } ∧
      ∃ row', (ensure_version reg kind name version row.content_hash source_uri).2.find?
          kind name = some row' ∧ row'.id = row.id ∧ row'.content_hash = row.content_hash) := by
  constructor
  · intro hne
    constructor
    · unfold ensure_version
      rw [hfind]
      simp only [if_pos (Ne.symm hne)]
    · exact ⟨"Version '" ++ name ++ "' for kind '" ++ kind ++ "' already exists with hash ",
        ". Use a new name or remove the existing record before re-importing.", rfl⟩
  · have hbody : ensure_version reg kind name version row.content_hash source_uri =
        (.ok { id := row.id, kind := kind, name := name, version := row.version,
               content_hash := row.content_hash, source_uri := row.source_uri },
         if row.version ≠ version || row.source_uri ≠ source_uri then
           { reg with rows := reg.rows.map (fun r =>
               if r.id = row.id then { r with version := version, source_uri := source_uri }
               else r) }
         else reg) := by
      unfold ensure_version
      rw [hfind]
      simp only [ne_eq, not_true_eq_false]
      rw [if_neg not_false]
    rw [hbody]
    refine ⟨rfl, ?_⟩
    by_cases hchg : (row.version ≠ version || row.source_uri ≠ source_uri) = true
    · rw [if_pos hchg]
      exact ⟨{ row with version := version, source_uri := source_uri },
        registry_find?_after_update reg kind name version source_uri row hfind, rfl, rfl⟩
    · rw [if_neg hchg]
      exact ⟨row, hfind, rfl, rfl⟩

/-- A registry fixture: one pinned catalog under the name `nist`. -/
def c1reg : Registry := ⟨[⟨1, "catalog", "nist", "v1", "H1", "s1"⟩], 2⟩

/-- Witness for C1 at a concrete registry. -/
theorem ensure_version_hash_immutable_witness :
    (ensure_version c1reg "catalog" "nist" "v2" "H2" "s2" =
        (.error (.valueError (conflictMsg "nist" "catalog" "H1")), c1reg) ∧
      ∃ pre post, conflictMsg "nist" "catalog" "H1" = pre ++ "H1" ++ post) ∧
    ((ensure_version c1reg "catalog" "nist" "v2" "H1" "s2").1 =
        .ok { id := 1, kind := "catalog", name := "nist", version := "v1",
              content_hash := "H1", source_uri := "s1" } ∧
      ∃ row', (ensure_version c1reg "catalog" "nist" "v2" "H1" "s2").2.find?
          "catalog" "nist" = some row' ∧ row'.id = 1 ∧ row'.content_hash = "H1") := by
  have h := ensure_version_hash_immutable c1reg "catalog" "nist" "v2" "s2" "H2"
    ⟨1, "catalog", "nist", "v1", "H1", "s1"⟩ (by rfl)
  exact ⟨h.1 (by decide), h.2⟩

/-! ### C4 — matching-hash metadata update (corrected) -/

/-- A registry fixture for the C4 counterexample. -/
def c4reg : Registry := ⟨[⟨1, "catalog", "nist", "v1", "H1", "s1"⟩], 2⟩

/-- **C4 counterexample.**  On the matching-hash path with changed
`version`/`source_uri`, the returned record does *not* carry the values just
written: re-importing under version `v2` / source `s2` returns the
previously stored `v1` / `s1`. -/
theorem ensure_version_returns_stale_metadata :
    (ensure_version c4reg "catalog" "nist" "v2" "H1" "s2").1 =
      .ok { id := 1, kind := "catalog", name := "nist", version := "v1",
            content_hash := "H1", source_uri := "s1" } ∧
    (ensure_version c4reg "catalog" "nist" "v2" "H1" "s2").1 ≠
      .ok { id := 1, kind := "catalog", name := "nist", version := "v2",
            content_hash := "H1", source_uri := "s2" } := by
  constructor
  · rfl
  · intro h
    rw [show (ensure_version c4reg "catalog" "nist" "v2" "H1" "s2").1 =
        .ok { id := 1, kind := "catalog", name := "nist", version := "v1",
              content_hash := "H1", source_uri := "s1" } from rfl] at h
    exact absurd (congrArg VersionRecord.version (Except.ok.inj h)) (by decide)

/-- **C4 (amended).**  On the matching-hash path, `ensure_version` updates
the stored row's `version` and `source_uri` in place (its `id` and
`content_hash` unchanged), but the `VersionRecord` it returns carries the
*previously stored* `version` and `source_uri`, not the values just
written; `content_hash` is unchanged either way. -/
theorem ensure_version_update_in_place
    (reg : Registry) (kind name version source_uri : String) (row : VersionRecord)
    (hfind : reg.find? kind name = some row)
    (hchg : row.version ≠ version ∨ row.source_uri ≠ source_uri) :
    (ensure_version reg kind name version row.content_hash source_uri).1 =
      .ok { id := row.id, kind := kind, name := name, version := row.version,
            content_hash := row.content_hash, source_uri := row.source_uri } ∧
    (ensure_version reg kind name version row.content_hash source_uri).2.find? kind name =
      some { row with version := version, source_uri := source_uri } := by
  have hcond : (row.version ≠ version || row.source_uri ≠ source_uri) = true := by
    rcases hchg with h | h <;> simp [h]
  have hbody : ensure_version reg kind name version row.content_hash source_uri =
      (.ok { id := row.id, kind := kind, name := name, version := row.version,
             content_hash := row.content_hash, source_uri := row.source_uri },
       { reg with rows := reg.rows.map (fun r =>
           if r.id = row.id then { r with version := version, source_uri := source_uri }
           else r) }) := by
    unfold ensure_version
    rw [hfind]
    simp only [ne_eq, not_true_eq_false]
    rw [if_neg not_false, if_pos hcond]
  rw [hbody]
  exact ⟨rfl, registry_find?_after_update reg kind name version source_uri row hfind⟩

/-- Witness for the amended C4 at a concrete registry. -/
theorem ensure_version_update_in_place_witness :
    (ensure_version c4reg "catalog" "nist" "v2" "H1" "s2").1 =
      .ok { id := 1, kind := "catalog", name := "nist", version := "v1",
            content_hash := "H1", source_uri := "s1" } ∧
    (ensure_version c4reg "catalog" "nist" "v2" "H1" "s2").2.find? "catalog" "nist" =
      some { id := 1, kind := "catalog", name := "nist", version := "v2",
             content_hash := "H1", source_uri := "s2" } :=
  ensure_version_update_in_place c4reg "catalog" "nist" "v2" "s2"
    ⟨1, "catalog", "nist", "v1", "H1", "s1"⟩ (by rfl) (by left; decide)

/-! ### C5 — content pinning -/

/-- **C5.**  For a readable source file, `pin_source_file` returns the
destination `"{dest_dir}/{stem}-{sha256hex[:12]}{ext}"` together with the
full digest of the file's bytes; pinning again (same bytes, same stem)
yields the same path and leaves the filesystem unchanged; and no
already-existing file is ever overwritten or deleted. -/
theorem pin_source_file_spec
    (sha : Bytes → String) (fs : Fs) (source dest_dir stem : String) (bytes : Bytes)
    (hread : fsRead fs source = some bytes) :
    ∃ fs₁,
      pin_source_file sha fs source dest_dir stem =
        some (fs₁,
          dest_dir ++ "/" ++ (stem ++ "-" ++ strTake 12 (sha bytes)
            ++ pyOrStrD (some (String.join (pathSuffixes source))) ".json"),
          sha bytes) ∧
      pin_source_file sha fs₁ source dest_dir stem =
        some (fs₁,
          dest_dir ++ "/" ++ (stem ++ "-" ++ strTake 12 (sha bytes)
            ++ pyOrStrD (some (String.join (pathSuffixes source))) ".json"),
          sha bytes) ∧
      (∀ p b, fsRead fs p = some b → fsRead fs₁ p = some b) := by
  set ext := pyOrStrD (some (String.join (pathSuffixes source))) ".json" with hext
  set dest := dest_dir ++ "/" ++ (stem ++ "-" ++ strTake 12 (sha bytes) ++ ext) with hdest
  have hpin : ∀ g : Fs, fsRead g source = some bytes →
      pin_source_file sha g source dest_dir stem =
        match fsRead g dest with
        | some _ => some (g, dest, sha bytes)
        | none => some ((dest, bytes) :: g, dest, sha bytes) := by
    intro g hg
    unfold pin_source_file
    rw [hg]
  cases hfd : fsRead fs dest with
  | some old =>
    refine ⟨fs, ?_, ?_, fun p b hb => hb⟩
    · rw [hpin fs hread, hfd]
    · rw [hpin fs hread, hfd]
  | none =>
    have hne : source ≠ dest := by
      intro h
      rw [h, hfd] at hread
      exact Option.noConfusion hread
    have hr1 : fsRead ((dest, bytes) :: fs) source = some bytes := by
      simp only [fsRead, List.lookup]
      rw [show (source == dest) = false from beq_eq_false_iff_ne.mpr hne]
      exact hread
    refine ⟨(dest, bytes) :: fs, ?_, ?_, ?_⟩
    · rw [hpin fs hread, hfd]
    · rw [hpin ((dest, bytes) :: fs) hr1]
      have : fsRead ((dest, bytes) :: fs) dest = some bytes := by
        simp [fsRead, List.lookup]
      rw [this]
    · intro p b hb
      have hpne : p ≠ dest := by
        intro h
        rw [h, hfd] at hb
        exact Option.noConfusion hb
      simp only [fsRead, List.lookup]
      rw [show (p == dest) = false from beq_eq_false_iff_ne.mpr hpne]
      exact hb

/-- A hash function and filesystem fixture for the C5 witness. -/
def c5sha : Bytes → String := fun b => if b = [7, 8] then "0123456789abcdef" else "zz"

/-- The C5 witness filesystem: one readable source document. -/
def c5fs : Fs := [("in/report.json", [7, 8])]

/-- Witness for C5 at a concrete filesystem. -/
theorem pin_source_file_spec_witness :
    ∃ fs₁,
      pin_source_file c5sha c5fs "in/report.json" "pinned/catalogs" "nist" =
        some (fs₁,
          "pinned/catalogs" ++ "/" ++ ("nist" ++ "-" ++ strTake 12 (c5sha [7, 8])
            ++ pyOrStrD (some (String.join (pathSuffixes "in/report.json"))) ".json"),
          c5sha [7, 8]) ∧
      pin_source_file c5sha fs₁ "in/report.json" "pinned/catalogs" "nist" =
        some (fs₁,
          "pinned/catalogs" ++ "/" ++ ("nist" ++ "-" ++ strTake 12 (c5sha [7, 8])
            ++ pyOrStrD (some (String.join (pathSuffixes "in/report.json"))) ".json"),
          c5sha [7, 8]) ∧
      (∀ p b, fsRead c5fs p = some b → fsRead fs₁ p = some b) :=
  pin_source_file_spec c5sha c5fs "in/report.json" "pinned/catalogs" "nist" [7, 8] (by rfl)

/-! ### C2 — catalog-import atomicity under version conflict -/

/-- A readable source always pins with the digest of its bytes. -/
theorem pin_source_file_digest (sha : Bytes → String) (fs : Fs)
    (source dest_dir stem : String) (bytes : Bytes)
    (hread : fsRead fs source = some bytes) :
    ∃ fs' p, pin_source_file sha fs source dest_dir stem = some (fs', p, sha bytes) := by
  set dest := dest_dir ++ "/" ++ (stem ++ "-" ++ strTake 12 (sha bytes)
    ++ pyOrStrD (some (String.join (pathSuffixes source))) ".json") with hdest
  have hpin : pin_source_file sha fs source dest_dir stem =
      match fsRead fs dest with
      | some _ => some (fs, dest, sha bytes)
      | none => some ((dest, bytes) :: fs, dest, sha bytes) := by
    unfold pin_source_file
    rw [hread]
  cases hfd : fsRead fs dest with
  | some old => exact ⟨fs, dest, by rw [hpin, hfd]⟩
  | none => exact ⟨(dest, bytes) :: fs, dest, by rw [hpin, hfd]⟩

/-- The conflict path of `ensure_version`: raises before any statement that
writes, so the registry is returned unchanged. -/
theorem ensure_version_conflict (reg : Registry)
    (kind name version content_hash source_uri : String) (row : VersionRecord)
    (hfind : reg.find? kind name = some row) (hne : row.content_hash ≠ content_hash) :
    ensure_version reg kind name version content_hash source_uri =
      (.error (.valueError (conflictMsg name kind row.content_hash)), reg) := by
  unfold ensure_version
  rw [hfind]
  simp only [if_pos hne]

/-- **C2.**  A catalog import whose name already has a `VersionRecord` but
whose file bytes hash differently fails with the `VersionConflict` error and
persists nothing: the registry check precedes every `catalog_controls`
upsert and the transaction is never committed, so the returned database
equals the input one (only the pinned file, written before the transaction,
may change the filesystem). -/
theorem catalog_import_conflict_atomic
    (sha : Bytes → String) (fs : Fs) (db : CatalogDb) (document : CatalogDocument)
    (path root name : String) (pinned_name : Option String)
    (bytes : Bytes) (row : VersionRecord)
    (hread : fsRead fs path = some bytes)
    (hfind : db.registry.find? "catalog" name = some row)
    (hhash : row.content_hash ≠ sha bytes) :
    ∃ fs', CatalogImporter.ingest sha fs db document path root name pinned_name =
      (.error (.valueError (conflictMsg name "catalog" row.content_hash)), fs', db) := by
  obtain ⟨fs', p, hp⟩ := pin_source_file_digest sha fs path (root ++ "/catalogs")
    (slugify (pyOrStr pinned_name document.metadata.title) name) bytes hread
  refine ⟨fs', ?_⟩
  simp only [CatalogImporter.ingest]
  rw [hp]
  dsimp only
  rw [ensure_version_conflict db.registry "catalog" name
    (pyOrStrD (pyOrStr document.metadata.version document.metadata.oscal_version) name)
    (sha bytes) p row hfind hhash]

/-- Fixtures for the C2 witness: a registry already holding `nist` under a
different hash than the new file's. -/
def c2sha : Bytes → String := fun _ => "NEWHASH"

/-- The C2 witness filesystem. -/
def c2fs : Fs := [("in/cat.json", [1, 2])]

/-- The C2 witness database: `nist` pinned with hash `OLDHASH`. -/
def c2db : CatalogDb := ⟨⟨[⟨1, "catalog", "nist", "5.0", "OLDHASH", "s"⟩], 2⟩, []⟩

/-- The C2 witness catalog document (one control). -/
def c2doc : CatalogDocument :=
  ⟨⟨some "NIST SP 800-53", some "5.1", some "1.1.2"⟩,
   [⟨"AC-1", some "Access Control", some "Policy and Procedures", [], []⟩]⟩

/-- Witness for C2 at concrete inputs. -/
theorem catalog_import_conflict_atomic_witness :
    ∃ fs', CatalogImporter.ingest c2sha c2fs c2db c2doc "in/cat.json" "pinned" "nist" none =
      (.error (.valueError (conflictMsg "nist" "catalog" "OLDHASH")), fs', c2db) :=
  catalog_import_conflict_atomic c2sha c2fs c2db c2doc "in/cat.json" "pinned" "nist" none
    [1, 2] ⟨1, "catalog", "nist", "5.0", "OLDHASH", "s"⟩ (by rfl) (by rfl) (by decide)

/-! ### C3 — SBOM ingestion transaction count (corrected) -/

theorem ensure_run_sbom (db : EvidenceDb) (pid : Nat) (rid : String) :
    (ensure_run db pid rid).2.sbom_components = db.sbom_components := by
  unfold ensure_run
  cases db.runs.find? (fun r => r.project_fk == pid && r.run_id == rid) <;> rfl

theorem upsert_evidence_sbom (db : EvidenceDb) (kind file_path content_hash : String)
    (size_bytes : Nat) (collected_at run_id : String) :
    (upsert_evidence db kind file_path content_hash size_bytes collected_at run_id).2.sbom_components
      = db.sbom_components := by
  unfold upsert_evidence
  cases db.evidence_files.find? (fun r => r.content_hash == content_hash) <;> rfl

/-- `EvidenceManager.ingest_file` on a readable source: exactly one commit,
whose writes touch only `runs`, `evidence_files` and `run_evidence`. -/
theorem ingest_file_ok (sha : Bytes → String) (fs : Fs) (db : EvidenceDb)
    (project : ProjectRecord) (run_id kind source store_root collected_at : String)
    (bytes : Bytes) (hread : fsRead fs source = some bytes) :
    ∃ rec fs' db1, EvidenceManager.ingest_file sha fs db project run_id kind source
        store_root collected_at = (.ok rec, fs', db1, [db1]) ∧
      db1.sbom_components = db.sbom_components := by
  obtain ⟨fs', p, hp⟩ := pin_source_file_digest sha fs source
    (store_root ++ "/evidence/" ++ project.key ++ "/" ++ run_id)
    (project.key ++ "-" ++ run_id ++ "-" ++ pathStem source) bytes hread
  simp only [EvidenceManager.ingest_file]
  rw [hp]
  dsimp only
  set runResult := ensure_run db project.id run_id with hrun
  set upResult := upsert_evidence runResult.2 kind p (sha bytes)
    ((fsRead fs' p).getD []).length collected_at run_id with hup
  have hsb : upResult.2.sbom_components = db.sbom_components := by
    rw [hup, upsert_evidence_sbom, hrun, ensure_run_sbom]
  by_cases hc : upResult.2.run_evidence.contains (runResult.1, upResult.1)
  · rw [if_pos hc]
    exact ⟨_, fs', upResult.2, rfl, hsb⟩
  · rw [if_neg hc]
    exact ⟨_, fs', _, rfl, hsb⟩

/-- **C3 (amended).**  SBOM ingestion on a readable source commits *two*
transactions: `EvidenceManager.ingest_file` commits the run row, the
`evidence_files` upsert and the `run_evidence` join on its own connection,
and the `sbom_components` replacement is committed on a second connection
afterwards; a failure between the two would leave the first transaction's
writes committed. -/
theorem sbom_ingest_two_transactions
    (sha : Bytes → String) (fs : Fs) (db : EvidenceDb) (project : ProjectRecord)
    (run_id source store_root collected_at : String) (doc : Json)
    (bytes : Bytes) (hread : fsRead fs source = some bytes) :
    ∃ ev fs' db1 db2,
      SbomIngestor.ingest sha fs db project run_id source doc store_root collected_at =
        (.ok (ev, (parse_cyclonedx doc).length), fs', db2, [db1, db2]) ∧
      db1.sbom_components = db.sbom_components ∧
      db2.runs = db1.runs ∧
      db2.evidence_files = db1.evidence_files ∧
      db2.run_evidence = db1.run_evidence ∧
      db2.sbom_components =
        db1.sbom_components.filter (fun r => !(r.evidence_fk == ev.id)) ++
          (parse_cyclonedx doc).map (fun c =>
            ({ evidence_fk := ev.id, name := c.name, version := c.version, purl := c.purl,
               licenses := joinSep ", " c.licenses } : SbomRow)) := by
  obtain ⟨rec, fs', db1, hfile, hsb⟩ := ingest_file_ok sha fs db project run_id "sbom"
    source store_root collected_at bytes hread
  simp only [SbomIngestor.ingest]
  rw [hfile]
  dsimp only
  exact ⟨rec, fs', db1, _, rfl, hsb, rfl, rfl, rfl, rfl⟩

/-- Fixtures for the C3 counterexample and witness. -/
def c3sha : Bytes → String := fun _ => "ffff00001111"

/-- The C3 filesystem: one SBOM file. -/
def c3fs : Fs := [("in/sbom.json", [9])]

/-- The C3 evidence database, initially empty. -/
def c3db : EvidenceDb := ⟨[], [], [], [], 1, 1⟩

/-- The C3 project fixture. -/
def c3proj : ProjectRecord := ⟨1, "proj", [], [], none⟩

/-- The C3 SBOM document: two components. -/
def c3doc : Json := .obj [("components", .arr [
  .obj [("name", .str "libx"), ("version", .str "1")],
  .obj [("name", .str "liby")]])]

/-- **C3 counterexample.**  At a concrete SBOM ingestion the number of
committed transactions is 2, not 1: the claim that all database writes of an
evidence-ingestion call happen inside exactly one transaction is false. -/
theorem sbom_ingest_not_single_transaction :
    ((SbomIngestor.ingest c3sha c3fs c3db c3proj "r1" "in/sbom.json" c3doc
        "store" "T").2.2.2).length = 2 ∧
    ¬ (((SbomIngestor.ingest c3sha c3fs c3db c3proj "r1" "in/sbom.json" c3doc
        "store" "T").2.2.2).length = 1) := by
  constructor
  · rfl
  · decide

/-- Witness for the amended C3 at concrete inputs. -/
theorem sbom_ingest_two_transactions_witness :
    ∃ ev fs' db1 db2,
      SbomIngestor.ingest c3sha c3fs c3db c3proj "r1" "in/sbom.json" c3doc "store" "T" =
        (.ok (ev, (parse_cyclonedx c3doc).length), fs', db2, [db1, db2]) ∧
      db1.sbom_components = c3db.sbom_components ∧
      db2.runs = db1.runs ∧
      db2.evidence_files = db1.evidence_files ∧
      db2.run_evidence = db1.run_evidence ∧
      db2.sbom_components =
        db1.sbom_components.filter (fun r => !(r.evidence_fk == ev.id)) ++
          (parse_cyclonedx c3doc).map (fun c =>
            ({ evidence_fk := ev.id, name := c.name, version := c.version, purl := c.purl,
               licenses := joinSep ", " c.licenses } : SbomRow)) :=
  sbom_ingest_two_transactions c3sha c3fs c3db c3proj "r1" "in/sbom.json" "store" "T"
    c3doc [9] (by rfl)

/-! ### C6 / C10 — policy-state import semantics -/

theorem inner_fold_snd (initiative_fk : Nat) (s : PolicyStateEntry) (le : Nat) :
    ∀ (cids : List String) (acc : List StateRow × Nat),
      (cids.foldl (fun acc cid =>
        (replace_state_row acc.1 initiative_fk cid s le, acc.2 + 1)) acc).2
        = acc.2 + cids.length := by
  intro cids
  induction cids with
  | nil => intro acc; rfl
  | cons c t ih =>
    intro acc
    rw [List.foldl_cons, ih]
    simp
    omega

theorem persist_state_step_snd (fromiso : String → Option Nat) (now : Nat)
    (mappings : List MappingRow) (initiative_fk : Nat)
    (acc : List StateRow × Nat) (s : PolicyStateEntry) :
    (persist_state_step fromiso now mappings initiative_fk acc s).2 =
      acc.2 + (controls_for_policy mappings initiative_fk s.policy_definition_id).length := by
  unfold persist_state_step
  by_cases h : (controls_for_policy mappings initiative_fk s.policy_definition_id).isEmpty
  · rw [if_pos h, List.isEmpty_iff.mp h]
    rfl
  · rw [if_neg h]
    exact inner_fold_snd _ _ _ _ _

theorem persist_states_foldl_snd (fromiso : String → Option Nat) (now : Nat)
    (mappings : List MappingRow) (initiative_fk : Nat) :
    ∀ (states : List PolicyStateEntry) (acc : List StateRow × Nat),
      (states.foldl (persist_state_step fromiso now mappings initiative_fk) acc).2 =
        acc.2 + (states.map (fun s =>
          (controls_for_policy mappings initiative_fk s.policy_definition_id).length)).sum := by
  intro states
  induction states with
  | nil => intro acc; simp
  | cons s t ih =>
    intro acc
    rw [List.foldl_cons, ih, persist_state_step_snd]
    simp
    omega

/-- Insertion count of `_persist_states`: one row per (entry, mapped
control) pair, so an entry mapping to zero controls contributes zero. -/
theorem persist_states_snd (fromiso : String → Option Nat) (now : Nat)
    (mappings : List MappingRow) (initiative_fk : Nat)
    (rows : List StateRow) (states : List PolicyStateEntry) :
    (persist_states fromiso now mappings initiative_fk rows states).2 =
      (states.map (fun s =>
        (controls_for_policy mappings initiative_fk s.policy_definition_id).length)).sum := by
  unfold persist_states
  rw [persist_states_foldl_snd]
  simp

/-- When every entry maps to zero controls, `_persist_states` writes
nothing. -/
theorem persist_states_all_unmapped (fromiso : String → Option Nat) (now : Nat)
    (mappings : List MappingRow) (initiative_fk : Nat) :
    ∀ (states : List PolicyStateEntry) (acc : List StateRow × Nat),
      (∀ s ∈ states, controls_for_policy mappings initiative_fk s.policy_definition_id = []) →
      states.foldl (persist_state_step fromiso now mappings initiative_fk) acc = acc := by
  intro states
  induction states with
  | nil => intro acc _; rfl
  | cons s t ih =>
    intro acc hall
    rw [List.foldl_cons]
    have hstep : persist_state_step fromiso now mappings initiative_fk acc s = acc := by
      unfold persist_state_step
      rw [if_pos (by rw [hall s (List.mem_cons_self s t)]; rfl)]
    rw [hstep]
    exact ih acc (fun x hx => hall x (List.mem_cons_of_mem s hx))

/-- The found-initiative path of `PolicyStateImporter.ingest` in terms of
`_persist_states`. -/
theorem policy_ingest_found (fromiso : String → Option Nat) (now : Nat)
    (db : PolicyDb) (raw : Json) (iname iscope : String)
    (states : List PolicyStateEntry) (initiative : InitiativeRow)
    (hstates : load_policy_states raw = .ok states)
    (hfind : db.policy_initiatives.find? (fun i =>
      i.initiative_id == iname && i.scope == pyLower iscope) = some initiative) :
    PolicyStateImporter.ingest fromiso now db raw iname iscope =
      (.ok { rows_processed := states.length,
             rows_inserted := (persist_states fromiso now db.policy_mappings initiative.id
               db.policy_states states).2 },
       { db with policy_states := (persist_states fromiso now db.policy_mappings initiative.id
           db.policy_states states).1 }) := by
  unfold PolicyStateImporter.ingest
  rw [hstates]
  dsimp only
  rw [hfind]

/-- **C6.**  Policy-state ingestion fails with the not-found error when the
`(initiative, scope)` row is absent (leaving the database unchanged); a
retained entry that maps to zero control ids inserts nothing while still
counting toward `processed`; and each new observation replaces any prior
row sharing its five-part natural key (delete before insert). -/
theorem policy_state_ingest_spec
    (fromiso : String → Option Nat) (now : Nat) (db : PolicyDb) (raw : Json)
    (iname iscope : String) (states : List PolicyStateEntry)
    (hstates : load_policy_states raw = .ok states) :
    (db.policy_initiatives.find? (fun i =>
        i.initiative_id == iname && i.scope == pyLower iscope) = none →
      PolicyStateImporter.ingest fromiso now db raw iname iscope =
        (.error (.valueError (notFoundMsg iname (pyLower iscope))), db)) ∧
    (∀ initiative, db.policy_initiatives.find? (fun i =>
        i.initiative_id == iname && i.scope == pyLower iscope) = some initiative →
      ((PolicyStateImporter.ingest fromiso now db raw iname iscope).1 =
          .ok { rows_processed := states.length,
                rows_inserted := (states.map (fun s =>
                  (controls_for_policy db.policy_mappings initiative.id
                    s.policy_definition_id).length)).sum }) ∧
      ((∀ s ∈ states, controls_for_policy db.policy_mappings initiative.id
          s.policy_definition_id = []) →
        (PolicyStateImporter.ingest fromiso now db raw iname iscope).2 = db) ∧
      (∀ s cid, states = [s] →
        controls_for_policy db.policy_mappings initiative.id s.policy_definition_id = [cid] →
        (PolicyStateImporter.ingest fromiso now db raw iname iscope).2.policy_states =
          db.policy_states.filter (fun r => !(stateKeyMatches r initiative.id cid s)) ++
            [{ initiative_fk := initiative.id, control_id := cid,
               policy_definition_fk := s.policy_definition_id,
               assignment_id := s.policy_assignment_id, resource_id := s.resource_id,
               compliance_state := s.compliance_state,
               last_evaluated := parse_timestamp fromiso now s.last_evaluated }])) := by
  constructor
  · intro hnone
    unfold PolicyStateImporter.ingest
    rw [hstates]
    dsimp only
    rw [hnone]
  · intro initiative hfind
    have hfound := policy_ingest_found fromiso now db raw iname iscope states initiative
      hstates hfind
    refine ⟨?_, ?_, ?_⟩
    · rw [hfound]
      dsimp only
      rw [persist_states_snd]
    · intro hall
      rw [hfound]
      dsimp only
      have : persist_states fromiso now db.policy_mappings initiative.id db.policy_states states
          = (db.policy_states, 0) :=
        persist_states_all_unmapped fromiso now db.policy_mappings initiative.id states
          (db.policy_states, 0) hall
      rw [this]
    · intro s cid hone hcids
      subst hone
      rw [hfound]
      dsimp only
      unfold persist_states
      rw [List.foldl_cons, List.foldl_nil]
      unfold persist_state_step
      rw [hcids]
      rw [if_neg (by simp)]
      rfl

/-- The C6/C10 policy database fixture: one initiative `init` in scope
`gov`, one mapping `polA ↦ AC-1`, one prior observation. -/
def c6db : PolicyDb :=
  ⟨[⟨1, "init", "gov"⟩], [⟨1, "AC-1", "polA"⟩], [⟨1, "AC-1", "polA", "as", "res", "Old", 5⟩]⟩

/-- A snapshot whose single entry maps to the `AC-1` control. -/
def c6snap : Json := .arr [.obj [("policyDefinitionId", .str "polA"),
  ("policyAssignmentId", .str "as"), ("resourceId", .str "res"),
  ("complianceState", .str "Compliant"), ("timestamp", .str "bogus-timestamp")]]

/-- A snapshot whose single entry maps to no control of the initiative. -/
def c6snapUnmapped : Json := .arr [.obj [("policyDefinitionId", .str "polB"),
  ("policyAssignmentId", .str "as"), ("resourceId", .str "res"),
  ("complianceState", .str "Compliant"), ("timestamp", .str "t")]]

/-- The retained entry of `c6snap`. -/
def c6entry : PolicyStateEntry := ⟨"polA", "as", "res", "Compliant", "bogus-timestamp"⟩

/-- The retained entry of `c6snapUnmapped`. -/
def c6entryUnmapped : PolicyStateEntry := ⟨"polB", "as", "res", "Compliant", "t"⟩

/-- An `isoformat` stub that accepts nothing, for the witnesses. -/
def c6fromiso : String → Option Nat := fun _ => none

/-- Witness for C6 at concrete inputs: the not-found error, the
processed/inserted counts of an unmapped entry, and the delete-then-insert
of a mapped one. -/
theorem policy_state_ingest_spec_witness :
    (PolicyStateImporter.ingest c6fromiso 42 c6db c6snap "nope" "gov" =
      (.error (.valueError (notFoundMsg "nope" (pyLower "gov"))), c6db)) ∧
    ((PolicyStateImporter.ingest c6fromiso 42 c6db c6snapUnmapped "init" "GOV").1 =
      .ok { rows_processed := [c6entryUnmapped].length,
            rows_inserted := ([c6entryUnmapped].map (fun s =>
              (controls_for_policy c6db.policy_mappings 1 s.policy_definition_id).length)).sum }) ∧
    ((PolicyStateImporter.ingest c6fromiso 42 c6db c6snapUnmapped "init" "GOV").2 = c6db) ∧
    ((PolicyStateImporter.ingest c6fromiso 42 c6db c6snap "init" "gov").2.policy_states =
      c6db.policy_states.filter (fun r => !(stateKeyMatches r 1 "AC-1" c6entry)) ++
        [{ initiative_fk := 1, control_id := "AC-1", policy_definition_fk := "polA",
           assignment_id := "as", resource_id := "res", compliance_state := "Compliant",
           last_evaluated := parse_timestamp c6fromiso 42 "bogus-timestamp" }]) := by
  have h1 := policy_state_ingest_spec c6fromiso 42 c6db c6snap "nope" "gov"
    [c6entry] (by rfl)
  have h2 := policy_state_ingest_spec c6fromiso 42 c6db c6snapUnmapped "init" "GOV"
    [c6entryUnmapped] (by rfl)
  have h3 := policy_state_ingest_spec c6fromiso 42 c6db c6snap "init" "gov"
    [c6entry] (by rfl)
  refine ⟨h1.1 (by rfl), (h2.2 ⟨1, "init", "gov"⟩ (by rfl)).1, ?_, ?_⟩
  · exact (h2.2 ⟨1, "init", "gov"⟩ (by rfl)).2.1 (by decide)
  · exact (h3.2 ⟨1, "init", "gov"⟩ (by rfl)).2.2 c6entry "AC-1" rfl (by rfl)

/-- **C10.**  A retained entry whose timestamp `datetime.fromisoformat`
rejects (after the `Z → +00:00` rewrite) does not fail ingestion:
`_parse_timestamp` silently substitutes the current wall clock, so the
stored `last_evaluated` is the ingestion-time clock value and two
ingestions of the byte-identical snapshot under different clock readings
persist different observations — the stored row is not a deterministic
function of the input document. -/
theorem policy_state_timestamp_nondeterministic
    (fromiso : String → Option Nat) (now now' : Nat) (db : PolicyDb) (raw : Json)
    (iname iscope : String) (s : PolicyStateEntry) (initiative : InitiativeRow) (cid : String)
    (hstates : load_policy_states raw = .ok [s])
    (hfind : db.policy_initiatives.find? (fun i =>
      i.initiative_id == iname && i.scope == pyLower iscope) = some initiative)
    (hcids : controls_for_policy db.policy_mappings initiative.id s.policy_definition_id = [cid])
    (hbad : fromiso (replaceChar 'Z' "+00:00" s.last_evaluated) = none) :
    parse_timestamp fromiso now s.last_evaluated = now ∧
    (PolicyStateImporter.ingest fromiso now db raw iname iscope).1 =
      .ok { rows_processed := 1, rows_inserted := 1 } ∧
    (PolicyStateImporter.ingest fromiso now db raw iname iscope).2.policy_states =
      db.policy_states.filter (fun r => !(stateKeyMatches r initiative.id cid s)) ++
        [{ initiative_fk := initiative.id, control_id := cid,
           policy_definition_fk := s.policy_definition_id,
           assignment_id := s.policy_assignment_id, resource_id := s.resource_id,
           compliance_state := s.compliance_state, last_evaluated := now }] ∧
    (now ≠ now' →
      (PolicyStateImporter.ingest fromiso now db raw iname iscope).2.policy_states ≠
        (PolicyStateImporter.ingest fromiso now' db raw iname iscope).2.policy_states) := by
  have hts : ∀ m : Nat, parse_timestamp fromiso m s.last_evaluated = m := by
    intro m
    unfold parse_timestamp
    rw [hbad]
  have hstate : ∀ m : Nat,
      (PolicyStateImporter.ingest fromiso m db raw iname iscope).2.policy_states =
        db.policy_states.filter (fun r => !(stateKeyMatches r initiative.id cid s)) ++
          [{ initiative_fk := initiative.id, control_id := cid,
             policy_definition_fk := s.policy_definition_id,
             assignment_id := s.policy_assignment_id, resource_id := s.resource_id,
             compliance_state := s.compliance_state, last_evaluated := m }] := by
    intro m
    rw [policy_ingest_found fromiso m db raw iname iscope [s] initiative hstates hfind]
    dsimp only
    unfold persist_states
    rw [List.foldl_cons, List.foldl_nil]
    unfold persist_state_step
    rw [hcids]
    rw [if_neg (by simp), hts m]
    rfl
  refine ⟨hts now, ?_, hstate now, ?_⟩
  · rw [policy_ingest_found fromiso now db raw iname iscope [s] initiative hstates hfind]
    dsimp only
    rw [persist_states_snd]
    simp [hcids]
  · intro hne heq
    rw [hstate now, hstate now'] at heq
    have h2 := List.append_cancel_left heq
    injection h2 with hh _
    exact hne (congrArg StateRow.last_evaluated hh)

/-! ### C7 — OSCAL profile parsing -/

theorem collect_includes_matching :
    ∀ (incs : List Json) (ids : List String),
      (∃ inc ∈ incs, inc.hasKey "matching" = true) →
      collect_includes ids incs = .error (.notImplementedError
        "Profile include-controls with 'matching' not supported yet.") := by
  intro incs
  induction incs with
  | nil => intro ids h; rcases h with ⟨_, hmem, _⟩; cases hmem
  | cons inc rest ih =>
    intro ids h
    unfold collect_includes collect_include
    by_cases hk : inc.hasKey "matching" = true
    · rw [if_pos hk]
    · rw [if_neg hk]
      rcases h with ⟨inc0, hmem, hk0⟩
      rcases List.mem_cons.mp hmem with rfl | hmem
      · exact absurd hk0 hk
      · exact ih _ ⟨inc0, hmem, hk0⟩

theorem collect_includes_no_matching :
    ∀ (incs : List Json) (ids : List String),
      (∀ inc ∈ incs, inc.hasKey "matching" = false) →
      ∃ ids', collect_includes ids incs = .ok ids' := by
  intro incs
  induction incs with
  | nil => intro ids _; exact ⟨ids, rfl⟩
  | cons inc rest ih =>
    intro ids hall
    unfold collect_includes collect_include
    rw [if_neg (by rw [hall inc (List.mem_cons_self inc rest)]; simp)]
    exact ih _ (fun x hx => hall x (List.mem_cons_of_mem inc hx))

theorem collect_imports_matching :
    ∀ (imps : List Json) (ids : List String),
      (∃ imp ∈ imps, ∃ inc ∈ (imp.get "include-controls").asArr, inc.hasKey "matching" = true) →
      collect_imports ids imps = .error (.notImplementedError
        "Profile include-controls with 'matching' not supported yet.") := by
  intro imps
  induction imps with
  | nil => intro ids h; rcases h with ⟨_, hmem, _⟩; cases hmem
  | cons imp rest ih =>
    intro ids h
    unfold collect_imports
    by_cases hin : ∃ inc ∈ (imp.get "include-controls").asArr, inc.hasKey "matching" = true
    · rw [collect_includes_matching _ ids hin]
    · push_neg at hin
      obtain ⟨ids', hok⟩ := collect_includes_no_matching (imp.get "include-controls").asArr ids
        (fun inc hmem => by
          have := hin inc hmem
          revert this
          cases inc.hasKey "matching" <;> simp)
      rw [hok]
      rcases h with ⟨imp0, hmem, hk0⟩
      rcases List.mem_cons.mp hmem with rfl | hmem
      · rcases hk0 with ⟨inc0, hinc, hk⟩
        exact absurd hk (hin inc0 hinc)
      · exact ih _ ⟨imp0, hmem, hk0⟩

/-- `load_profile` after the top-level-key check, as one equation. -/
theorem load_profile_branch (data : Json) (hprof : data.hasKey "profile" = true) :
    load_profile data =
      match collect_control_ids (data.get "profile") with
      | .error e => .error e
      | .ok ids =>
        if (insertionSortB strLe ids).isEmpty then
          .error (.valueError "Profile did not yield any control identifiers.")
        else .ok { metadata :=
                     { title := ((data.get "profile").get? "metadata").getD (.obj [])
                         |>.get "title"
                       version := extract_version
                         (((data.get "profile").get? "metadata").getD (.obj []))
                       oscal_version := ((data.get "profile").get? "metadata").getD (.obj [])
                         |>.get "oscal-version" }
                   control_ids := insertionSortB strLe ids } := by
  unfold load_profile
  rw [if_neg (by rw [hprof]; simp)]

/-- Any successfully parsed profile carries an `insertionSortB`-sorted id
list. -/
theorem load_profile_ok_shape (data : Json) (d : ProfileDocument)
    (h : load_profile data = .ok d) :
    ∃ ids, d.control_ids = insertionSortB strLe ids := by
  by_cases hp : data.hasKey "profile" = true
  · rw [load_profile_branch data hp] at h
    rcases hc : collect_control_ids (data.get "profile") with e | ids
    · rw [hc] at h
      cases h
    · rw [hc] at h
      dsimp only at h
      by_cases he : (insertionSortB strLe ids).isEmpty = true
      · rw [if_pos he] at h
        cases h
      · rw [if_neg he] at h
        exact ⟨ids, by rw [← Except.ok.inj h]⟩
  · unfold load_profile at h
    rw [if_pos (by revert hp; cases data.hasKey "profile" <;> simp)] at h
    cases h

/-- The baseline-profile fixture of the claim:
`imports[0].include-controls[0].with-ids = ["AC-1", "AC-2"]`. -/
def c7fixture : Json := .obj [("profile", .obj [
  ("metadata", .obj [("title", .str "Baseline"), ("version", .str "1.0")]),
  ("imports", .arr [.obj [("include-controls", .arr [
      .obj [("with-ids", .arr [.str "AC-1", .str "AC-2"])]])]])])]

/-- **C7.**  `load_profile` collects ids from
`imports[].include-controls[].with-ids[]`; any `matching` selector fails
fast with `NotImplementedError`; the top-level `controls[].id` fallback is
consulted only when the imports yielded no ids; an empty result id set is
an error; the returned list is sorted lexicographically; and the fixture
with `with-ids = ["AC-1", "AC-2"]` yields exactly `["AC-1", "AC-2"]`. -/
theorem load_profile_spec (data : Json) (hprof : data.hasKey "profile" = true) :
    ((∃ imp ∈ ((data.get "profile").get "imports").asArr,
        ∃ inc ∈ (imp.get "include-controls").asArr, inc.hasKey "matching" = true) →
      load_profile data = .error (.notImplementedError
        "Profile include-controls with 'matching' not supported yet.")) ∧
    (∀ ids, collect_imports [] ((data.get "profile").get "imports").asArr = .ok ids →
      ids ≠ [] →
      (load_profile data).map ProfileDocument.control_ids =
        .ok (insertionSortB strLe ids.dedup)) ∧
    (collect_imports [] ((data.get "profile").get "imports").asArr = .ok [] →
      (fallback_ids (data.get "profile") ≠ [] →
        (load_profile data).map ProfileDocument.control_ids =
          .ok (insertionSortB strLe (fallback_ids (data.get "profile")).dedup)) ∧
      (fallback_ids (data.get "profile") = [] →
        load_profile data =
          .error (.valueError "Profile did not yield any control identifiers."))) ∧
    (∀ d, load_profile data = .ok d →
      d.control_ids.Pairwise (fun a b => strLe a b = true)) ∧
    (load_profile c7fixture).map ProfileDocument.control_ids = .ok ["AC-1", "AC-2"] := by
  have hbranch := load_profile_branch data hprof
  have hsort_ne : ∀ ids : List String, ids ≠ [] →
      (insertionSortB strLe ids.dedup).isEmpty ≠ true := by
    intro ids hne he
    have h1 := List.isEmpty_iff.mp he
    have h2 := congrArg List.length h1
    rw [length_insertionSortB] at h2
    exact hne ((List.dedup_eq_nil _).mp (List.length_eq_zero.mp h2))
  have hok_branch : ∀ ids', collect_control_ids (data.get "profile") = .ok ids' →
      load_profile data =
        if (insertionSortB strLe ids').isEmpty then
          .error (.valueError "Profile did not yield any control identifiers.")
        else .ok { metadata :=
                     { title := ((data.get "profile").get? "metadata").getD (.obj [])
                         |>.get "title"
                       version := extract_version
                         (((data.get "profile").get? "metadata").getD (.obj []))
                       oscal_version := ((data.get "profile").get? "metadata").getD (.obj [])
                         |>.get "oscal-version" }
                   control_ids := insertionSortB strLe ids' } := by
    intro ids' hc
    rw [hbranch, hc]
  refine ⟨?_, ?_, ?_, ?_, ?_⟩
  · intro hmatch
    rw [hbranch]
    unfold collect_control_ids
    rw [collect_imports_matching _ [] hmatch]
  · intro ids hok hne
    have hcc : collect_control_ids (data.get "profile") = .ok ids.dedup := by
      unfold collect_control_ids
      rw [hok]
      dsimp only
      rw [if_neg (by simpa using hne)]
    rw [hok_branch ids.dedup hcc, if_neg (hsort_ne ids hne)]
    rfl
  · intro hok
    have hcc : collect_control_ids (data.get "profile") =
        .ok (fallback_ids (data.get "profile")).dedup := by
      unfold collect_control_ids
      rw [hok]
      dsimp only
      rw [if_pos (show ([] : List String).isEmpty = true from rfl)]
    constructor
    · intro hfb
      rw [hok_branch _ hcc, if_neg (hsort_ne _ hfb)]
      rfl
    · intro hfb
      rw [hfb] at hcc
      rw [hok_branch _ hcc,
        if_pos (show (insertionSortB strLe ([] : List String).dedup).isEmpty = true from rfl)]
  · intro d hd
    obtain ⟨ids, hids⟩ := load_profile_ok_shape data d hd
    rw [hids]
    exact pairwise_insertionSortB strLe strLe_total (fun a b c => strLe_trans) ids
  · rfl

/-! ### C8 — Azure initiative parsing (corrected) -/

theorem initiative_policy_isSome (properties metadata e : Json) :
    (initiative_policy properties metadata e).isSome = (e.get "policyDefinitionId").truthy := by
  unfold initiative_policy
  by_cases h : (e.get "policyDefinitionId").truthy = true
  · rw [if_neg (by rw [h]; simp), h]
    rfl
  · rw [if_pos (by revert h; cases (e.get "policyDefinitionId").truthy <;> simp)]
    revert h
    cases (e.get "policyDefinitionId").truthy <;> simp

theorem length_filterMap_eq_filter (f : α → Option β) (p : α → Bool)
    (hf : ∀ x, (f x).isSome = p x) :
    ∀ l : List α, (l.filterMap f).length = (l.filter p).length := by
  intro l
  induction l with
  | nil => rfl
  | cons x t ih =>
    cases hfx : f x with
    | none =>
      have hp : p x = false := by rw [← hf, hfx]; rfl
      rw [List.filterMap_cons, hfx, List.filter_cons, hp]
      exact ih
    | some b =>
      have hp : p x = true := by rw [← hf, hfx]; rfl
      rw [List.filterMap_cons, hfx, List.filter_cons, hp]
      simp [ih]

theorem subset_foldl_norm :
    ∀ (l : List Json) (acc : List String), acc ⊆ l.foldl norm_control_id acc := by
  intro l
  induction l with
  | nil => exact fun acc => List.Subset.refl acc
  | cons c t ih =>
    intro acc x hx
    rw [List.foldl_cons]
    refine ih _ ?_
    cases c with
    | str s => exact List.mem_append_left _ hx
    | null => exact hx
    | bool b => exact hx
    | num n => exact hx
    | arr items => exact hx
    | obj fields => exact hx

theorem mem_foldl_norm :
    ∀ (l : List Json) (acc : List String) (raw : String),
      Json.str raw ∈ l → pyUpper (pyStrip raw) ∈ l.foldl norm_control_id acc := by
  intro l
  induction l with
  | nil => intro acc raw h; cases h
  | cons c t ih =>
    intro acc raw h
    rw [List.foldl_cons]
    rcases List.mem_cons.mp h with rfl | h
    · exact subset_foldl_norm t _
        (List.mem_append_right _ (List.mem_singleton.mpr rfl))
    · exact ih _ raw h

/-- An initiative document lacking `properties.policyDefinitions`. -/
def c8doc : Json := .obj [("name", .str "ini"),
  ("properties", .obj [("displayName", .str "D")])]

/-- **C8 counterexample.**  `load_initiative` does *not* reject a document
lacking `properties.policyDefinitions[]`: the fixture without that key
parses successfully, with an empty policy list. -/
theorem load_initiative_accepts_missing_definitions :
    (load_initiative c8doc).isOk = true ∧
    load_initiative c8doc = .ok { name := .str "ini", version := .null, policies := [] } :=
  ⟨rfl, rfl⟩

/-- **C8 (amended).**  A document lacking `properties.policyDefinitions[]`
is *accepted* with an empty policy list (not rejected); each
`policyDefinitions` entry without a (truthy) `policyDefinitionId` is
skipped without failing — exactly the truthy-id entries survive; and every
string control id taken from `metadata.compliance.complianceControlIds`
(or, when that is falsy, `metadata.nistControlIds`) appears in the result
upper-cased and trimmed. -/
theorem load_initiative_spec (data : Json) :
    (((data.get? "properties").getD (.obj [])).get? "policyDefinitions" = none →
      ∃ d, load_initiative data = .ok d ∧ d.policies = []) ∧
    (∀ entries,
      ((data.get? "properties").getD (.obj [])).get "policyDefinitions" = .arr entries →
      ∃ d, load_initiative data = .ok d ∧
        d.policies.length =
          (entries.filter (fun e => (e.get "policyDefinitionId").truthy)).length) ∧
    (∀ entry raw,
      Json.str raw ∈ (pyOrJ
          (((((entry.get? "metadata").getD (.obj [])).get? "compliance").getD (.obj [])).get
            "complianceControlIds")
          (pyOrJ (((entry.get? "metadata").getD (.obj [])).get "nistControlIds")
            (.arr []))).asArr →
      pyUpper (pyStrip raw) ∈ extract_control_ids entry) := by
  refine ⟨?_, ?_, ?_⟩
  · intro h
    refine ⟨_, rfl, ?_⟩
    show (((data.get? "properties").getD (.obj [])).get "policyDefinitions").asArr.filterMap
      _ = []
    unfold Json.get
    rw [h]
    rfl
  · intro entries h
    refine ⟨_, rfl, ?_⟩
    show ((((data.get? "properties").getD (.obj [])).get "policyDefinitions").asArr.filterMap
      _).length = _
    rw [h]
    exact length_filterMap_eq_filter _ _
      (initiative_policy_isSome ((data.get? "properties").getD (.obj []))
        ((((data.get? "properties").getD (.obj [])).get? "metadata").getD (.obj []))) entries
  · intro entry raw hmem
    unfold extract_control_ids
    exact mem_foldl_norm _ [] raw hmem

/-- An initiative entry with a definition id and one padded, lower-case
NIST control id. -/
def c8entryGood : Json := .obj [("policyDefinitionId", .str "polA"),
  ("metadata", .obj [("nistControlIds", .arr [.str " ac-1 "])])]

/-- An initiative entry lacking `policyDefinitionId`. -/
def c8entryNoId : Json := .obj [("displayName", .str "x")]

/-- An initiative document with one well-formed and one id-less entry. -/
def c8doc2 : Json := .obj [("properties", .obj [("policyDefinitions",
  .arr [c8entryGood, c8entryNoId])])]

/-- Witness for the amended C8 at concrete documents. -/
theorem load_initiative_spec_witness :
    (∃ d, load_initiative c8doc = .ok d ∧ d.policies = []) ∧
    (∃ d, load_initiative c8doc2 = .ok d ∧
      d.policies.length =
        ([c8entryGood, c8entryNoId].filter
          (fun e => (e.get "policyDefinitionId").truthy)).length) ∧
    pyUpper (pyStrip " ac-1 ") ∈ extract_control_ids c8entryGood := by
  have h1 := load_initiative_spec c8doc
  have h2 := load_initiative_spec c8doc2
  refine ⟨h1.1 rfl, h2.2.1 [c8entryGood, c8entryNoId] rfl, ?_⟩
  exact h2.2.2 c8entryGood " ac-1 "
    (show Json.str " ac-1 " ∈ [Json.str " ac-1 "] from List.Mem.head _)

/-- Witness for C7 at the fixture profile. -/
theorem load_profile_spec_witness :
    ((∃ imp ∈ ((c7fixture.get "profile").get "imports").asArr,
        ∃ inc ∈ (imp.get "include-controls").asArr, inc.hasKey "matching" = true) →
      load_profile c7fixture = .error (.notImplementedError
        "Profile include-controls with 'matching' not supported yet.")) ∧
    (∀ ids, collect_imports [] ((c7fixture.get "profile").get "imports").asArr = .ok ids →
      ids ≠ [] →
      (load_profile c7fixture).map ProfileDocument.control_ids =
        .ok (insertionSortB strLe ids.dedup)) ∧
    (collect_imports [] ((c7fixture.get "profile").get "imports").asArr = .ok [] →
      (fallback_ids (c7fixture.get "profile") ≠ [] →
        (load_profile c7fixture).map ProfileDocument.control_ids =
          .ok (insertionSortB strLe (fallback_ids (c7fixture.get "profile")).dedup)) ∧
      (fallback_ids (c7fixture.get "profile") = [] →
        load_profile c7fixture =
          .error (.valueError "Profile did not yield any control identifiers."))) ∧
    (∀ d, load_profile c7fixture = .ok d →
      d.control_ids.Pairwise (fun a b => strLe a b = true)) ∧
    (load_profile c7fixture).map ProfileDocument.control_ids = .ok ["AC-1", "AC-2"] :=
  load_profile_spec c7fixture (by rfl)

/-! ### C9 — migration apply -/

/-- With no checksum mismatch among the migrations, `apply` succeeds:
recorded-and-matching files are skipped, pending files are applied in
order and recorded. -/
theorem applyGo_no_mismatch (existing : List (String × String)) :
    ∀ (migs : List Migration) (table : List (String × String)) (applied : List String),
      (∀ m ∈ migs, ∀ c, List.lookup m.filename existing = some c → c ≠ "" ∧ c = m.checksum) →
      applyGo existing table applied migs =
        .ok (applied ++ (migs.filter
              (fun m => (List.lookup m.filename existing).isNone)).map (fun m => m.filename),
             table ++ (migs.filter
              (fun m => (List.lookup m.filename existing).isNone)).map
                (fun m => (m.filename, m.checksum))) := by
  intro migs
  induction migs with
  | nil => intro table applied _; simp [applyGo]
  | cons m rest ih =>
    intro table applied hall
    unfold applyGo
    cases hl : List.lookup m.filename existing with
    | some c =>
      dsimp only
      obtain ⟨hne, hck⟩ := hall m (List.mem_cons_self m rest) c hl
      rw [if_pos hne, if_neg (by rw [hck]; simp)]
      rw [ih table applied (fun x hx => hall x (List.mem_cons_of_mem m hx))]
      rw [List.filter_cons, show ((List.lookup m.filename existing).isNone) = false from
        by rw [hl]; rfl]
      simp
    | none =>
      dsimp only
      rw [ih (table ++ [(m.filename, m.checksum)]) (applied ++ [m.filename])
        (fun x hx => hall x (List.mem_cons_of_mem m hx))]
      rw [List.filter_cons, show ((List.lookup m.filename existing).isNone) = true from
        by rw [hl]; rfl]
      simp

/-- A checksum mismatch anywhere in the list makes `apply` raise the
`RuntimeError`. -/
theorem applyGo_mismatch (existing : List (String × String)) :
    ∀ (migs : List Migration) (table : List (String × String)) (applied : List String),
      (∃ m ∈ migs, ∃ c, List.lookup m.filename existing = some c ∧ c ≠ "" ∧ c ≠ m.checksum) →
      ∃ f c₀ ck, applyGo existing table applied migs =
        .error (.runtimeError (mismatchMsg f c₀ ck)) := by
  intro migs
  induction migs with
  | nil => intro table applied h; rcases h with ⟨_, hmem, _⟩; cases hmem
  | cons m rest ih =>
    intro table applied h
    unfold applyGo
    cases hl : List.lookup m.filename existing with
    | some c =>
      dsimp only
      by_cases hce : c = ""
      · rw [if_neg (by rw [hce]; simp)]
        refine ih _ _ ?_
        rcases h with ⟨m0, hmem, c0, hl0, hne0, hck0⟩
        rcases List.mem_cons.mp hmem with rfl | hmem
        · rw [hl0] at hl
          exact absurd ((Option.some.inj hl).trans hce) hne0
        · exact ⟨m0, hmem, c0, hl0, hne0, hck0⟩
      · rw [if_pos hce]
        by_cases hck : c = m.checksum
        · rw [if_neg (by rw [hck]; simp)]
          refine ih _ _ ?_
          rcases h with ⟨m0, hmem, c0, hl0, hne0, hck0⟩
          rcases List.mem_cons.mp hmem with rfl | hmem
          · rw [hl0] at hl
            rw [Option.some.inj hl, hck] at hck0
            exact absurd rfl hck0
          · exact ⟨m0, hmem, c0, hl0, hne0, hck0⟩
        · rw [if_pos hck]
          exact ⟨m.filename, c, m.checksum, rfl⟩
    | none =>
      dsimp only
      refine ih _ _ ?_
      rcases h with ⟨m0, hmem, c0, hl0, hne0, hck0⟩
      rcases List.mem_cons.mp hmem with rfl | hmem
      · rw [hl0] at hl
        cases hl
      · exact ⟨m0, hmem, c0, hl0, hne0, hck0⟩

/-- **C9.**  Migrations are discovered (and hence processed) in
lexicographic filename order; an already-recorded migration with matching
checksum is skipped while a pending one is applied and its checksum
recorded; and any recorded migration whose on-disk checksum differs makes
`apply` fail with the checksum-mismatch `RuntimeError`, the rolled-back
tracking table showing no migration of that call — in particular none
later in the order — as applied. -/
theorem migration_apply_spec (sha : Bytes → String) (files : List (String × Bytes))
    (existing : List (String × String)) (migrations : List Migration) :
    ((MigrationRunner.discover sha files).Pairwise
      (fun m n => strLe m.filename n.filename = true)) ∧
    ((∀ m ∈ migrations, ∀ c, List.lookup m.filename existing = some c →
        c ≠ "" ∧ c = m.checksum) →
      ∃ applied table', MigrationRunner.apply existing migrations = .ok (applied, table') ∧
        (∀ m ∈ migrations, ∀ c, List.lookup m.filename existing = some c →
          m.filename ∉ applied) ∧
        (∀ m ∈ migrations, List.lookup m.filename existing = none →
          m.filename ∈ applied ∧ (m.filename, m.checksum) ∈ table')) ∧
    ((∃ m ∈ migrations, ∃ c, List.lookup m.filename existing = some c ∧
        c ≠ "" ∧ c ≠ m.checksum) →
      (∃ f c₀ ck, MigrationRunner.apply existing migrations =
        .error (.runtimeError (mismatchMsg f c₀ ck))) ∧
      MigrationRunner.applyFinalTable existing migrations = existing) := by
  refine ⟨?_, ?_, ?_⟩
  · unfold MigrationRunner.discover
    refine List.Pairwise.map _ (fun a b h => h) ?_
    exact pairwise_insertionSortB (fun a b : String × Bytes => strLe a.1 b.1)
      (fun a b => strLe_total a.1 b.1)
      (fun a b c hab hbc => strLe_trans
        (show strLe a.1 b.1 = true from hab) (show strLe b.1 c.1 = true from hbc)) _
  · intro hall
    refine ⟨_, _, applyGo_no_mismatch existing migrations existing [] hall, ?_, ?_⟩
    · intro m hmem c hl hin
      rw [List.nil_append] at hin
      obtain ⟨m', hm', hfn⟩ := List.mem_map.mp hin
      obtain ⟨hm'mem, hm'none⟩ := List.mem_filter.mp hm'
      rw [hfn] at hm'none
      rw [hl] at hm'none
      cases hm'none
    · intro m hmem hnone
      constructor
      · rw [List.nil_append]
        exact List.mem_map.mpr ⟨m, List.mem_filter.mpr ⟨hmem, by rw [hnone]; rfl⟩, rfl⟩
      · refine List.mem_append_right _ ?_
        exact List.mem_map.mpr ⟨m, List.mem_filter.mpr ⟨hmem, by rw [hnone]; rfl⟩, rfl⟩
  · intro hmis
    obtain ⟨f, c₀, ck, herr⟩ := applyGo_mismatch existing migrations existing [] hmis
    refine ⟨⟨f, c₀, ck, herr⟩, ?_⟩
    unfold MigrationRunner.applyFinalTable
    rw [show MigrationRunner.apply existing migrations =
      .error (.runtimeError (mismatchMsg f c₀ ck)) from herr]

/-- A checksum function fixture for the C9 witness. -/
def c9sha : Bytes → String := fun b => if b = [1] then "CK1" else "CK2"

/-- Migration files on disk, deliberately listed out of order. -/
def c9files : List (String × Bytes) := [("002_b.sql", [2]), ("001_a.sql", [1])]

/-- Witness for C9: sorted discovery; skip-and-apply on a clean table; the
fatal mismatch against a tampered recorded checksum. -/
theorem migration_apply_spec_witness :
    ((MigrationRunner.discover c9sha c9files).Pairwise
      (fun m n => strLe m.filename n.filename = true)) ∧
    (∃ applied table',
      MigrationRunner.apply [("001_a.sql", "CK1")]
        [⟨"001_a.sql", "CK1"⟩, ⟨"002_b.sql", "CK2"⟩] = .ok (applied, table') ∧
      "001_a.sql" ∉ applied ∧ "002_b.sql" ∈ applied ∧
      ("002_b.sql", "CK2") ∈ table') ∧
    (∃ f c₀ ck, MigrationRunner.apply [("001_a.sql", "TAMPERED")]
        [⟨"001_a.sql", "CK1"⟩, ⟨"002_b.sql", "CK2"⟩] =
      .error (.runtimeError (mismatchMsg f c₀ ck))) ∧
    MigrationRunner.applyFinalTable [("001_a.sql", "TAMPERED")]
        [⟨"001_a.sql", "CK1"⟩, ⟨"002_b.sql", "CK2"⟩] = [("001_a.sql", "TAMPERED")] := by
  have h1 := migration_apply_spec c9sha c9files [("001_a.sql", "CK1")]
    [⟨"001_a.sql", "CK1"⟩, ⟨"002_b.sql", "CK2"⟩]
  have h2 := migration_apply_spec c9sha c9files [("001_a.sql", "TAMPERED")]
    [⟨"001_a.sql", "CK1"⟩, ⟨"002_b.sql", "CK2"⟩]
  have hclean : ∀ m ∈ ([⟨"001_a.sql", "CK1"⟩, ⟨"002_b.sql", "CK2"⟩] : List Migration),
      ∀ c, List.lookup m.filename [("001_a.sql", "CK1")] = some c →
        c ≠ "" ∧ c = m.checksum := by
    intro m hm c hc
    rcases List.mem_cons.mp hm with rfl | hm
    · rw [show List.lookup ({ filename := "001_a.sql", checksum := "CK1" } : Migration).filename
        [("001_a.sql", "CK1")] = some "CK1" from rfl] at hc
      obtain rfl := (Option.some.inj hc).symm
      exact ⟨by decide, rfl⟩
    · rcases List.mem_cons.mp hm with rfl | hm
      · rw [show List.lookup ({ filename := "002_b.sql", checksum := "CK2" } : Migration).filename
          [("001_a.sql", "CK1")] = none from rfl] at hc
        cases hc
      · cases hm
  obtain ⟨applied, table', hok, hskip, hpend⟩ := h1.2.1 hclean
  have htamper : ∃ m ∈ ([⟨"001_a.sql", "CK1"⟩, ⟨"002_b.sql", "CK2"⟩] : List Migration),
      ∃ c, List.lookup m.filename [("001_a.sql", "TAMPERED")] = some c ∧
        c ≠ "" ∧ c ≠ m.checksum :=
    ⟨⟨"001_a.sql", "CK1"⟩, List.mem_cons_self _ _, "TAMPERED", by decide⟩
  refine ⟨h1.1, ⟨applied, table', hok, ?_, ?_, ?_⟩, (h2.2.2 htamper).1, (h2.2.2 htamper).2⟩
  · exact hskip ⟨"001_a.sql", "CK1"⟩ (List.mem_cons_self _ _) "CK1" (by decide)
  · exact (hpend ⟨"002_b.sql", "CK2"⟩ (by simp) (by decide)).1
  · exact (hpend ⟨"002_b.sql", "CK2"⟩ (by simp) (by decide)).2

/-- Witness for C10 at concrete inputs: the clock value is stored, and
clocks 42 and 43 persist different observations. -/
theorem policy_state_timestamp_nondeterministic_witness :
    parse_timestamp c6fromiso 42 "bogus-timestamp" = 42 ∧
    (PolicyStateImporter.ingest c6fromiso 42 c6db c6snap "init" "gov").1 =
      .ok { rows_processed := 1, rows_inserted := 1 } ∧
    (PolicyStateImporter.ingest c6fromiso 42 c6db c6snap "init" "gov").2.policy_states =
      c6db.policy_states.filter (fun r => !(stateKeyMatches r 1 "AC-1" c6entry)) ++
        [{ initiative_fk := 1, control_id := "AC-1", policy_definition_fk := "polA",
           assignment_id := "as", resource_id := "res", compliance_state := "Compliant",
           last_evaluated := 42 }] ∧
    (42 ≠ 43 →
      (PolicyStateImporter.ingest c6fromiso 42 c6db c6snap "init" "gov").2.policy_states ≠
        (PolicyStateImporter.ingest c6fromiso 43 c6db c6snap "init" "gov").2.policy_states) :=
  policy_state_timestamp_nondeterministic c6fromiso 42 43 c6db c6snap "init" "gov"
    c6entry ⟨1, "init", "gov"⟩ "AC-1" (by rfl) (by rfl) (by rfl) (by rfl)

end Swft
